import Mathlib

/-!
Verification development for the broker-order reconciliation and P&L engine
of the trading-journal repository (source: server/services/tradelocker.js and
the POST /sync handler of server/api/settings.js).

JavaScript numbers are modelled as rationals (ℚ): every arithmetic operation
the modelled code performs on the inputs of interest (decimal literals,
addition, subtraction, multiplication, division, Math.round-based rounding)
is exact in ℚ, so ℚ is a faithful shallow embedding of those computations.
JavaScript null/undefined (and the empty string, which the source's `get`
helper folds into null) is modelled as `Option.none`.
-/

/-- JS truthiness default for numbers: `x || d` where `none` models
null/undefined and `0` is falsy. -/
def jsOrQ (o : Option ℚ) (d : ℚ) : ℚ :=
  match o with
  | some v => if v = 0 then d else v
  | none => d

/-- JS truthiness default for strings: `s || t` where the empty string is
falsy. -/
def jsOrS (s t : String) : String :=
  if s = "" then t else s

/-- JS `parseFloat(x || 0) || null`: null/undefined and 0 both become null,
a nonzero number passes through (source lines 975-976 and 1001). -/
def jsOrNullQ (o : Option ℚ) : Option ℚ :=
  match o with
  | some v => if v = 0 then none else some v
  | none => none

/-- JS `Math.round(x * 100) / 100`, the 2-decimal rounding used throughout
the engine. Mathlib's `round` is ⌊x + 1/2⌋, which agrees with JS
`Math.round` on all rationals, including the half-way negative cases
(both round halves toward +∞). -/
def round2 (x : ℚ) : ℚ := (round (x * 100) : ℤ) / 100

/-- JS `Math.round(x * 100000) / 100000`, the 5-decimal rounding applied to
the dedicated stop-loss / take-profit fields (source lines 1269-1270). -/
def round5 (x : ℚ) : ℚ := (round (x * 100000) : ℤ) / 100000

/-- JS whitespace characters recognised by `String.prototype.trim` that can
occur in the ASCII payloads the broker API emits (space, tab, LF, CR,
vertical tab, form feed; the Unicode additions of the JS spec cannot occur
in the modelled inputs). -/
def isJsWs (c : Char) : Bool :=
  c == ' ' || c == '\t' || c == '\n' || c == '\r' || c == '\x0b' || c == '\x0c'

/-- Character-list core of JS `String.prototype.trim`: drop leading and
trailing whitespace. -/
def trimChars (l : List Char) : List Char :=
  ((l.dropWhile isJsWs).reverse.dropWhile isJsWs).reverse

/-- JS `String.prototype.trim`. -/
def jsTrim (s : String) : String := ⟨trimChars s.data⟩

/-- JS `String.prototype.toLowerCase` on the ASCII payloads the API emits
(charwise `Char.toLower`; `String.toLower` itself is not kernel-reducible). -/
def strLower (s : String) : String := ⟨s.data.map Char.toLower⟩

/-- JS `String.prototype.toUpperCase` on ASCII payloads (charwise). -/
def strUpper (s : String) : String := ⟨s.data.map Char.toUpper⟩

/-- Bool test: does `hay` start with `needle` (character lists)? -/
def listStarts (hay needle : List Char) : Bool :=
  match hay, needle with
  | _, [] => true
  | [], _ :: _ => false
  | a :: as, b :: bs => a == b && listStarts as bs

/-- Bool test: does `hay` contain `needle` as a contiguous run (JS
`String.prototype.includes`)? -/
def listHasSub (hay needle : List Char) : Bool :=
  match hay with
  | [] => needle.isEmpty
  | _ :: t => listStarts hay needle || listHasSub t needle

/-- JS `hay.includes(needle)` on strings. -/
def strHasSub (hay needle : String) : Bool := listHasSub hay.data needle.data

/-- JS `hay.startsWith(needle)` on strings. -/
def strStarts (hay needle : String) : Bool := listStarts hay.data needle.data

/-- JS `String.prototype.replace(needle, '')` with a plain-string pattern:
remove the first occurrence of `needle` only. -/
def removeFirst (hay needle : List Char) : List Char :=
  match hay with
  | [] => []
  | a :: t =>
    if listStarts (a :: t) needle then List.drop needle.length (a :: t)
    else a :: removeFirst t needle

/-- JS `s.slice(-n)`: the last `n` characters (the whole string when it is
shorter than `n`). -/
def sliceLast (l : List Char) (n : Nat) : List Char := l.drop (l.length - n)

/-- Normalisation applied by `getContractMultiplier`:
`symbol.toUpperCase().replace(/[.\s_]/g, '')` (source line 395). -/
def normSym (s : String) : String :=
  ⟨(s.data.map Char.toUpper).filter (fun c => !(c == '.' || c == '_' || isJsWs c))⟩

/-- Test for the character class `[A-Z]`. -/
def isUpperAlpha (c : Char) : Bool := 'A' ≤ c && c ≤ 'Z'

/-- The regex `/^[A-Z]{6}(\.PRO)?$/` of source line 420: six capital letters
optionally followed by the literal suffix ".PRO". -/
def forexRegexMatch (s : String) : Bool :=
  match s.data with
  | a :: b :: c :: d :: e :: f :: rest =>
    ([a, b, c, d, e, f].all isUpperAlpha) && (rest == [] || rest == ['.', 'P', 'R', 'O'])
  | _ => false

/-- Live FX rate table passed to the multiplier (source `fxRates`); absent
keys are `none`. The `spreads` diagnostic map is not consulted by any
modelled computation and is omitted. -/
structure FxRates where
  EURUSD : Option ℚ := none
  GBPUSD : Option ℚ := none
  AUDUSD : Option ℚ := none
  NZDUSD : Option ℚ := none
  CADUSD : Option ℚ := none
  CHFUSD : Option ℚ := none
  JPYUSD : Option ℚ := none
  SGDUSD : Option ℚ := none
  USDCAD : Option ℚ := none
  USDCHF : Option ℚ := none
  USDJPY : Option ℚ := none
  USDSGD : Option ℚ := none
  deriving DecidableEq, Repr

/-- The `quoteCcyToUSD` table of source lines 426-436 followed by the
`?? 1` lookup of line 437: quote-currency → USD conversion rate. -/
def quoteCcyToUSD (fx : FxRates) (q : String) : ℚ :=
  if q = "USD" then 1
  else if q = "EUR" then jsOrQ fx.EURUSD 1
  else if q = "GBP" then jsOrQ fx.GBPUSD 1
  else if q = "AUD" then jsOrQ fx.AUDUSD 1
  else if q = "NZD" then jsOrQ fx.NZDUSD 1
  else if q = "CAD" then jsOrQ fx.CADUSD (1 / jsOrQ fx.USDCAD 1)
  else if q = "CHF" then jsOrQ fx.CHFUSD (1 / jsOrQ fx.USDCHF 1)
  else if q = "JPY" then jsOrQ fx.JPYUSD (1 / jsOrQ fx.USDJPY 100)
  else if q = "SGD" then jsOrQ fx.SGDUSD (1 / jsOrQ fx.USDSGD (13 / 10))
  else 1

/-- The EU equity-index symbol fragments of source lines 404-406. -/
def eurIndices : List String :=
  ["DE40", "GER40", "DE30", "GER30", "DAX", "FRA40", "CAC40", "ESP35", "EU50",
   "STOXX50", "STOXX", "AEX", "SMI", "IBEX", "MIB", "FTSEMIB"]

/-- The UK equity-index symbol fragments of source line 412. -/
def gbpIndices : List String := ["UK100", "FTSE", "UKX"]

/-- Shallow embedding of `getContractMultiplier(symbol, fxRates,
instrumentType)` (source lines 393-444): the USD contract multiplier
applied to priceDiff × qty. -/
def getContractMultiplier (symbol : String) (fx : FxRates) (instrumentType : String) : ℚ :=
  if symbol = "" then 1
  else
    let s := normSym symbol
    if strStarts s "XAU" || strStarts s "XAG" || strHasSub s "GOLD" || strHasSub s "SILVER" then
      100
    else if eurIndices.any (fun idx => strHasSub s idx) then
      100 * jsOrQ fx.EURUSD 1
    else if gbpIndices.any (fun idx => strHasSub s idx) then
      100 * jsOrQ fx.GBPUSD 1
    else if instrumentType = "FOREX" || (instrumentType = "" && forexRegexMatch s) then
      let base : String := ⟨removeFirst s.data "PRO".data⟩
      let quoteCcy : String := ⟨sliceLast base.data 3⟩
      100000 * quoteCcyToUSD fx quoteCcy
    else 1

/-- Insert `x` into `l` before the first element `y` with `le x y`; the
insertion step of a stable insertion sort. -/
def insertSorted (le : α → α → Bool) (x : α) : List α → List α
  | [] => [x]
  | y :: ys => if le x y then x :: y :: ys else y :: insertSorted le x ys

/-- Stable sort by the boolean preorder `le`: elements comparing equal keep
their original relative order, exactly as the (specified-stable) JS
`Array.prototype.sort`. Structural recursion so that concrete runs reduce
inside the kernel. -/
def stableSort (le : α → α → Bool) : List α → List α
  | [] => []
  | x :: xs => insertSorted le x (stableSort le xs)

/-- One raw record of the `ordersHistory` wire array in the dense numeric-key
encoding (official field mapping of source lines 722-743). Field `fN` holds
index `[N]`; `none` models null/undefined and the empty string, which the
source's `get` helper (lines 755-758 and 931-934) maps to null. Numeric
slots are ℚ (the value `parseFloat` would produce), timestamp slots are ℤ
milliseconds, the rest are strings. -/
structure RawOrder where
  f0 : Option String := none
  f1 : Option String := none
  f2 : Option String := none
  f3 : Option ℚ := none
  f4 : Option String := none
  f5 : Option String := none
  f6 : Option String := none
  f7 : Option ℚ := none
  f8 : Option ℚ := none
  f9 : Option ℚ := none
  f10 : Option ℚ := none
  f11 : Option String := none
  f12 : Option String := none
  f13 : Option Int := none
  f14 : Option Int := none
  f15 : Option String := none
  f16 : Option String := none
  f17 : Option ℚ := none
  f18 : Option String := none
  f19 : Option ℚ := none
  f20 : Option String := none
  f21 : Option String := none
  deriving DecidableEq, Repr, Inhabited

/-- Source `String(get(o, 6) || '').toLowerCase()`: the order status. -/
def statusOf (o : RawOrder) : String := strLower (o.f6.getD "")

/-- Source `String(get(o, 15) || '').toLowerCase()`: the isOpen flag text. -/
def isOpenOf (o : RawOrder) : String := strLower (o.f15.getD "")

/-- Source `String(get(o, 4) || '').toLowerCase()`: the order side. -/
def sideOf (o : RawOrder) : String := strLower (o.f4.getD "")

/-- Source `String(get(o, 5) || '').toLowerCase()`: the order kind. -/
def kindOf (o : RawOrder) : String := strLower (o.f5.getD "")

/-- Source `String(get(o, 11) || '').toUpperCase()`: the time-in-force. -/
def validityOf (o : RawOrder) : String := strUpper (o.f11.getD "")

/-- Source `Number(get(o, 13) || 0)`: the creation timestamp sort key. -/
def createdOf (o : RawOrder) : Int := o.f13.getD 0

/-- Filled opening order test of source lines 937-941. -/
def isFilledOpening (o : RawOrder) : Bool :=
  statusOf o == "filled" && isOpenOf o == "true"

/-- Filled closing order test of source lines 944-948. -/
def isFilledClosing (o : RawOrder) : Bool :=
  statusOf o == "filled" && isOpenOf o == "false"

/-- Grouping key of source line 922: `String(order['16'] ?? '').trim()`,
`none` when the trimmed key is empty (such orders are skipped). -/
def orderKey (o : RawOrder) : Option String :=
  let k := jsTrim (o.f16.getD "")
  if k = "" then none else some k

/-- Append `o` to the group with key `k`, creating the group at the end when
the key is new — the insertion-order semantics of the JS `Map` used at
source lines 919-925. -/
def insertGroup (gs : List (String × List RawOrder)) (k : String) (o : RawOrder) :
    List (String × List RawOrder) :=
  match gs with
  | [] => [(k, [o])]
  | (k', os) :: rest =>
    if k' = k then (k', os ++ [o]) :: rest else (k', os) :: insertGroup rest k o

/-- Fold of the grouping loop (source lines 921-926) over the raw order
list, keyed by trimmed positionId. -/
def buildGroupsAux (gs : List (String × List RawOrder)) :
    List RawOrder → List (String × List RawOrder)
  | [] => gs
  | o :: rest =>
    match orderKey o with
    | none => buildGroupsAux gs rest
    | some k => buildGroupsAux (insertGroup gs k o) rest

/-- The groups Map of source lines 919-926: positionId → orders, in key
insertion order. -/
def buildGroups (orders : List RawOrder) : List (String × List RawOrder) :=
  buildGroupsAux [] orders

/-- One reconciled closed position: the composite object pushed at source
lines 1028-1061. JS fields carrying the same value (`ticket`/`orderId`,
`side`/`type`, `qty`/`volume`, `avgPrice`/`openPrice`,
`closePrice`/`exitPrice`, `stopLoss`/`stopPrice`,
`openTime`/`openDate`/`entryTime`, `closeTime`/`closeDate`/`exitTime`,
`profit`/`netProfit`) are stored once, except the ticket/orderId pair which
the downstream dedup reads through a JS `||` chain and is kept as two
fields. -/
structure Pos where
  positionId : String
  ticket : String
  orderId : String
  tradableInstrumentId : String
  side : String
  orderType : String
  qty : ℚ
  openPrice : ℚ
  exitPrice : ℚ
  stopLoss : Option ℚ
  takeProfit : Option ℚ
  openTime : Option Int
  closeTime : Option Int
  status : String
  profit : ℚ
  deriving DecidableEq, Repr, Inhabited

/-- Bracket-order test of source lines 989-997: opposite side, status
cancelled/pending/empty, time-in-force GTC. -/
def isBracket (oppositeSide : String) (o : RawOrder) : Bool :=
  sideOf o == oppositeSide &&
    (statusOf o == "cancelled" || statusOf o == "pending" || statusOf o == "") &&
    validityOf o == "GTC"

/-- Fallback SL/TP recovery loop of source lines 999-1005: walk the bracket
orders in group order; a stop-kind bracket with nonzero price supplies the
stop loss and a limit-kind bracket the take profit, each only while the
corresponding value is still null. -/
def applyBrackets (brackets : List RawOrder) (sl tp : Option ℚ) : Option ℚ × Option ℚ :=
  brackets.foldl
    (fun acc b =>
      match jsOrNullQ b.f9 with
      | none => acc
      | some price =>
        let sl' := if kindOf b == "stop" && acc.1 == none then some price else acc.1
        let tp' := if kindOf b == "limit" && acc.2 == none then some price else acc.2
        (sl', tp'))
    (sl, tp)

/-- Construction of the composite closed-position object (source lines
963-1061) from the picked opening and closing fills of one group. -/
def buildPositionCore (openOrder closeOrder : RawOrder) (positionId : String)
    (posOrders : List RawOrder) (instrumentMap : List (String × String)) (fx : FxRates)
    (instrumentFullMap : List (String × String)) : Pos :=
  let side := sideOf openOrder
  let orderType := kindOf openOrder
  let qty := openOrder.f3.getD 0
  let entryPrice := openOrder.f8.getD 0
  let exitPrice := closeOrder.f8.getD 0
  let instId := openOrder.f1.getD ""
  let symbol := (instrumentMap.lookup instId).getD ""
  let instType := (instrumentFullMap.lookup instId).getD ""
  let oppositeSide := if side = "sell" then "buy" else "sell"
  let brackets := posOrders.filter (isBracket oppositeSide)
  let (stopLoss, takeProfit) :=
    applyBrackets brackets (jsOrNullQ openOrder.f17) (jsOrNullQ openOrder.f19)
  let grossPnl :=
    if entryPrice > 0 ∧ exitPrice > 0 ∧ qty > 0 then
      (if side = "sell" then entryPrice - exitPrice else exitPrice - entryPrice) * qty *
        getContractMultiplier symbol fx instType
    else 0
  { positionId := positionId
    ticket := closeOrder.f0.getD ""
    orderId := closeOrder.f0.getD ""
    tradableInstrumentId := instId
    side := side
    orderType := orderType
    qty := qty
    openPrice := entryPrice
    exitPrice := exitPrice
    stopLoss := stopLoss
    takeProfit := takeProfit
    openTime := openOrder.f13
    closeTime := closeOrder.f13
    status := "filled"
    profit := round2 grossPnl }

/-- Per-group body of the reconciliation loop (source lines 930-1061):
`none` when the group lacks a filled opening or a filled closing order.
The JS `sort(...)[0]` picks (earliest-created opening fill, latest-created
closing fill) are modelled by the stable sort followed by taking the
head. -/
def buildPosition (positionId : String) (posOrders : List RawOrder)
    (instrumentMap : List (String × String)) (fx : FxRates)
    (instrumentFullMap : List (String × String)) : Option Pos :=
  let openingFills := posOrders.filter isFilledOpening
  let closingFills := posOrders.filter isFilledClosing
  match stableSort (fun a b => decide (createdOf a ≤ createdOf b)) openingFills,
        stableSort (fun a b => decide (createdOf b ≤ createdOf a)) closingFills with
  | openOrder :: _, closeOrder :: _ =>
    some (buildPositionCore openOrder closeOrder positionId posOrders instrumentMap fx
      instrumentFullMap)
  | _, _ => none

/-- Exit-time sort key of source line 1066: `Number(a.closeTime || 0)`. -/
def closeMsOf (p : Pos) : Int := p.closeTime.getD 0

/-- Shallow embedding of `groupPositionOrders(orders, instrumentMap,
fxRates, instrumentFullMap)` (source lines 918-1068): group raw orders by
positionId, reconcile each complete group into a closed position, and sort
ascending by exit time (stable, as JS sort is). -/
def groupPositionOrders (orders : List RawOrder)
    (instrumentMap : List (String × String)) (fx : FxRates)
    (instrumentFullMap : List (String × String)) : List Pos :=
  stableSort (fun a b => decide (closeMsOf a ≤ closeMsOf b))
    ((buildGroups orders).filterMap
      (fun g => buildPosition g.1 g.2 instrumentMap fx instrumentFullMap))

/-- Canonical record produced by `normalizeTradeLockerTrade` for the dense
numeric-key encoding (source lines 766-799). Fields that the source sets to
null when absent are `Option`; fields the source coerces through
`parseFloat(… || 0)` are plain ℚ. -/
structure NormalizedTrade where
  ticket : Option String
  tradableInstrumentId : Option String
  routeId : Option String
  volume : ℚ
  type : String
  orderType : String
  status : String
  filledQty : ℚ
  openPrice : ℚ
  limitTriggerPrice : ℚ
  stopTriggerPrice : ℚ
  timeInForce : String
  expireDate : Option String
  openTime : Option Int
  lastModified : Option Int
  isOpen : Bool
  positionId : Option String
  stopPrice : ℚ
  stopLossType : String
  takeProfit : ℚ
  takeProfitType : String
  strategyId : Option String
  accountNum : Option String
  closePrice : ℚ
  closeTime : Option Int
  parentOrderId : Option String
  profit : ℚ
  swap : ℚ
  commission : ℚ
  netProfit : ℚ
  deriving DecidableEq, Repr

/-- Shallow embedding of the dense-form branch of
`normalizeTradeLockerTrade(tradeData)` (source lines 748-800). A
`RawOrder` models a record whose keys are all numeric and at least 15
strong, so `hasNumericKeys && keys.length >= 15` holds and this branch is
taken. `get(i)` returning null is `none`; `parseFloat(get(i) || 0)` is
`Option.getD … 0`; `stopLoss`/`takeProfit` (lines 760-764) default to 0
when the slot is null. -/
def normalizeTradeLockerTrade (o : RawOrder) : NormalizedTrade :=
  { ticket := o.f0
    tradableInstrumentId := o.f1
    routeId := o.f2
    volume := o.f3.getD 0
    type := sideOf o
    orderType := kindOf o
    status := statusOf o
    filledQty := o.f7.getD 0
    openPrice := o.f8.getD 0
    limitTriggerPrice := o.f9.getD 0
    stopTriggerPrice := o.f10.getD 0
    timeInForce := o.f11.getD ""
    expireDate := o.f12
    openTime := o.f13
    lastModified := o.f14
    isOpen := isOpenOf o == "true"
    positionId := o.f16
    stopPrice := o.f17.getD 0
    stopLossType := o.f18.getD ""
    takeProfit := o.f19.getD 0
    takeProfitType := o.f20.getD ""
    strategyId := o.f21
    accountNum := none
    closePrice := 0
    closeTime := none
    parentOrderId := o.f16
    profit := 0
    swap := 0
    commission := 0
    netProfit := 0 }

/-- JS truthiness pass-through for timestamps: a 0 timestamp is falsy and
falls through an `a || b || null` alias chain to null. -/
def jsOrNullI (o : Option Int) : Option Int :=
  match o with
  | some t => if t = 0 then none else some t
  | none => none

/-- Sparse (named-field) branch of `normalizeTradeLockerTrade` applied to a
grouped position object, field `stopPrice`: the chain
`stopPrice || stopLoss || slPrice || sl || ['10'] || 0` of source lines
821-828. On a `Pos` both `stopPrice` and `stopLoss` carry the grouped
stop loss and every other alias is absent. -/
def nStopPricePos (p : Pos) : ℚ := p.stopLoss.getD 0

/-- Sparse-branch field `takeProfit`: the chain
`takeProfit || tpPrice || tp || ['12'] || 0` of source lines 830-835. -/
def nTakeProfitPos (p : Pos) : ℚ := p.takeProfit.getD 0

/-- Sparse-branch field `volume`: the chain
`volume || lotSize || size || quantity || amount || ['3'] || 0` of source
line 867; on a `Pos` only the `volume` alias (= `qty`) is present. -/
def nVolumePos (p : Pos) : ℚ := p.qty

/-- Sparse-branch field `type` (the trade side): source line 868. -/
def nTypePos (p : Pos) : String := strLower p.side

/-- Sparse-branch field `status`: source line 870. -/
def nStatusPos (p : Pos) : String := strLower p.status

/-- Sparse-branch field `openPrice`: the chain
`openPrice || open || entryPrice || avgPrice || ['8'] || 0` of source line
871; on a `Pos` the aliases `openPrice` and `avgPrice` are the same
value. -/
def nOpenPricePos (p : Pos) : ℚ := p.openPrice

/-- Sparse-branch field `closePrice`: the chain of source line 872; on a
`Pos` the aliases `closePrice` and `exitPrice` are the same value. -/
def nClosePricePos (p : Pos) : ℚ := p.exitPrice

/-- Sparse-branch field `openTime` (source line 878): every alias on a
`Pos` holds the same entry timestamp, and a 0 timestamp is falsy so the
chain ends in null. -/
def nOpenTimePos (p : Pos) : Option Int := jsOrNullI p.openTime

/-- Sparse-branch field `closeTime` (source line 879). -/
def nCloseTimePos (p : Pos) : Option Int := jsOrNullI p.closeTime

/-- Sparse-branch field `profit` (source lines 805-818): on a `Pos` only the
`profit` alias is present, and the numeric `||` chain returns it (a zero
profit falls through every absent alias back to the literal 0). -/
def nProfitPos (p : Pos) : ℚ := p.profit

/-- Sparse-branch fields `commission` and `swap` (source lines 839-851): a
grouped position always carries literal 0 for both, so
`netProfit = profit - Math.abs(commission) - swap = profit` (line 886). -/
def nNetProfitPos (p : Pos) : ℚ := p.profit

/-- The trade id used for duplicate detection by the transform (source line
1264): `normalized.ticket || normalized.id || normalized.parentOrderId`,
which on a `Pos` reduces to the closing-order id when nonempty. -/
def nTradeIdPos (p : Pos) : Option String :=
  if p.ticket ≠ "" then some p.ticket
  else if p.orderId ≠ "" then some p.orderId
  else none

/-- The filled-status test of source line 1090. -/
def isFilledStatus (s : String) : Bool :=
  s == "filled" || s == "closed" || s == "executed" || s == "complete"

/-- The pnl computation of `transformTradeLockerTrade` (source lines
1083-1112): start from `netProfit || profit || 0` (= the grouped gross
P&L); when that is (numerically) zero and the trade is filled with
positive prices and volume, fall back to the raw price-difference × volume
(note: without any contract multiplier), minus |commission| plus swap. -/
def computePnl (p : Pos) : ℚ :=
  let pnl0 := nNetProfitPos p
  if |pnl0| < 1 / 10000 ∧ isFilledStatus (nStatusPos p) = true ∧ nOpenPricePos p > 0 ∧
      nClosePricePos p > 0 ∧ nVolumePos p > 0 then
    let base :=
      if nTypePos p = "buy" then (nClosePricePos p - nOpenPricePos p) * nVolumePos p
      else if nTypePos p = "sell" then (nOpenPricePos p - nClosePricePos p) * nVolumePos p
      else pnl0
    base - |(0 : ℚ)| + 0
  else pnl0

/-- JS `Number.MAX_SAFE_INTEGER`. -/
def maxSafeInteger : Int := 9007199254740991

/-- Timestamp validation of source lines 1125-1135: numeric, positive and
below `Number.MAX_SAFE_INTEGER`. -/
def tsValid (t : Int) : Bool := decide (0 < t) && decide (t < maxSafeInteger)

/-- The openTime fallback of the close-date logic (source lines 1139-1177):
a truthy, valid openTime, else the current time. -/
def openTimeFallback (p : Pos) (nowMs : Int) : Int :=
  match nOpenTimePos p with
  | some u => if tsValid u then u else nowMs
  | none => nowMs

/-- The close-date computation of source lines 1117-1177: a truthy, valid
closeTime; else a truthy, valid openTime; else the current time (`nowMs`
models `new Date()`). -/
def closeDateMs (p : Pos) (nowMs : Int) : Int :=
  match nCloseTimePos p with
  | some t => if tsValid t then t else openTimeFallback p nowMs
  | none => openTimeFallback p nowMs

/-- The persisted trade projection built by `transformTradeLockerTrade`
(source lines 1272-1290). The presentation-only fields `day` and `notes`
(weekday name and a human-readable summary string) are not modelled; no
claim mentions them. -/
structure TradeRec where
  dateMs : Int
  pnl : ℚ
  openBalance : ℚ
  closeBalance : ℚ
  percentGain : ℚ
  riskDollar : ℚ
  targetDollar : ℚ
  rrAchieved : ℚ
  targetHit : Bool
  result : String
  stopLoss : Option ℚ
  takeProfit : Option ℚ
  tradelockerTradeId : Option String
  deriving DecidableEq, Repr, Inhabited

/-- Shallow embedding of `transformTradeLockerTrade(tradeData, openBalance,
settings, instrumentSymbol)` (source lines 1077-1291) applied to a grouped
position object (the only input shape the sync handler feeds it):
normalization takes the sparse named-field branch, pnl comes from
`computePnl`, the risk metrics from source lines 1180-1187, and every
recorded monetary field is 2-decimal rounded. `riskPercentIn`/
`riskRewardIn` are the fields of the settings object the handler passes;
the `|| 2` / `|| 3` defaults of lines 1180-1181 are applied here. -/
def transformTradeLockerTrade (p : Pos) (openBalance : ℚ)
    (riskPercentIn riskRewardIn : ℚ) (nowMs : Int) : TradeRec :=
  let pnl := computePnl p
  let riskPercent := if riskPercentIn = 0 then 2 else riskPercentIn
  let riskReward := if riskRewardIn = 0 then 3 else riskRewardIn
  let riskDollar := openBalance * riskPercent / 100
  let targetDollar := riskDollar * riskReward
  let percentGain := if openBalance > 0 then pnl / openBalance * 100 else 0
  let closeBalance := openBalance + pnl
  let rrAchieved := if riskDollar > 0 then pnl / riskDollar else 0
  let targetHit := decide (targetDollar ≤ pnl)
  { dateMs := closeDateMs p nowMs
    pnl := round2 pnl
    openBalance := round2 openBalance
    closeBalance := round2 closeBalance
    percentGain := round2 percentGain
    riskDollar := round2 riskDollar
    targetDollar := round2 targetDollar
    rrAchieved := round2 rrAchieved
    targetHit := targetHit
    result :=
      if targetHit && decide (0 < pnl) then "Target Achieved"
      else if 0 < pnl then "Win"
      else if pnl < 0 then "Loss"
      else "Breakeven"
    stopLoss := if nStopPricePos p > 0 then some (round5 (nStopPricePos p)) else none
    takeProfit := if nTakeProfitPos p > 0 then some (round5 (nTakeProfitPos p)) else none
    tradelockerTradeId := nTradeIdPos p }

/-- Sync mode of the POST /sync handler (source line 330):
`initial` fetches full history and caps, `refresh` is incremental. -/
inductive Mode where
  | initial
  | refresh
  deriving DecidableEq, Repr

/-- User settings row (startingBalance, riskPercent, riskReward). -/
structure Settings where
  startingBalance : ℚ
  riskPercent : ℚ
  riskReward : ℚ
  deriving DecidableEq, Repr

/-- Persisted trade row as far as the sync handler reads it back:
the dedup key column `tradelockerTradeId` (null allowed) and the
transformed record whose `date` column drives the incremental window. -/
structure DbTrade where
  tradelockerTradeId : Option String
  row : TradeRec
  deriving DecidableEq, Repr

/-- Source line 551: `String(position.positionId || '').trim()`. -/
def posIdKeyOf (p : Pos) : String := jsTrim p.positionId

/-- Source line 553: `String(position.orderId || position.ticket || '').trim()`. -/
def ordIdKeyOf (p : Pos) : String := jsTrim (jsOrS p.orderId p.ticket)

/-- Source line 555: `positionId || orderId || null`, the external id stored
with a newly created trade. -/
def tradeLockerIdOf (p : Pos) : Option String :=
  if posIdKeyOf p ≠ "" then some (posIdKeyOf p)
  else if ordIdKeyOf p ≠ "" then some (ordIdKeyOf p)
  else none

/-- The transform-and-dedup loop of the sync handler (source lines 549-582):
walk positions oldest-first carrying the running balance; skip a position
whose positionId or closing orderId is already persisted; otherwise
transform it at the current balance, record it, and advance the balance to
the transformed trade's closeBalance. Returns (tradesToCreate,
skippedCount). -/
def dedupLoop (existingIds : List String) (riskPercentIn riskRewardIn : ℚ) (nowMs : Int) :
    List Pos → ℚ → List DbTrade × Nat
  | [], _ => ([], 0)
  | p :: rest, bal =>
    if posIdKeyOf p ≠ "" ∧ posIdKeyOf p ∈ existingIds then
      let r := dedupLoop existingIds riskPercentIn riskRewardIn nowMs rest bal
      (r.1, r.2 + 1)
    else if ordIdKeyOf p ≠ "" ∧ ordIdKeyOf p ∈ existingIds then
      let r := dedupLoop existingIds riskPercentIn riskRewardIn nowMs rest bal
      (r.1, r.2 + 1)
    else
      let t := transformTradeLockerTrade p bal riskPercentIn riskRewardIn nowMs
      let r := dedupLoop existingIds riskPercentIn riskRewardIn nowMs rest t.closeBalance
      ({ tradelockerTradeId := tradeLockerIdOf p, row := t } :: r.1, r.2)

/-- Accumulation step of the latest-synced-date query: rows without an
external id are ignored, the rest contribute their date to a running
maximum. -/
def latestStep (acc : Option Int) (t : DbTrade) : Option Int :=
  match t.tradelockerTradeId with
  | none => acc
  | some _ =>
    match acc with
    | none => some t.row.dateMs
    | some m => some (max m t.row.dateMs)

/-- The `prisma.trade.findFirst(orderBy date desc, where tradelockerTradeId
not null)` query of source lines 370-374: the latest `date` among persisted
rows carrying an external id. -/
def latestSyncedDate (db : List DbTrade) : Option Int :=
  db.foldl latestStep none

/-- JS `list.slice(-n)`: the last `n` elements. -/
def takeLast (n : Nat) (l : List α) : List α := l.drop (l.length - n)

/-- The cap condition of source line 486: `mode === 'initial' ||
isFirstSync` where isFirstSync means no persisted external ids. -/
def shouldCapRun (mode : Mode) (existingIds : List String) : Bool :=
  mode == Mode.initial || existingIds.isEmpty

/-- The cap of source lines 484-489: keep only the 100 most recent
positions (`slice(-100)` of the oldest-first list) when capping. -/
def capStep (cap : Bool) (ps : List Pos) : List Pos :=
  if cap then takeLast 100 ps else ps

/-- Source line 547: `settings?.startingBalance || 1000`, the starting value
of the running balance. -/
def settingsStartBal (settings : Option Settings) : ℚ :=
  match settings with
  | some st => if st.startingBalance = 0 then 1000 else st.startingBalance
  | none => 1000

/-- The riskPercent field of the settings object the handler passes to the
transform (source line 570: `settings || { riskPercent: 2, riskReward: 3 }`). -/
def settingsRiskPercent (settings : Option Settings) : ℚ :=
  match settings with
  | some st => st.riskPercent
  | none => 2

/-- The riskReward field of that settings object. -/
def settingsRiskReward (settings : Option Settings) : ℚ :=
  match settings with
  | some st => st.riskReward
  | none => 3

/-- Outcome of one modelled sync run. -/
structure RunResult where
  created : Nat
  skipped : Nat
  tradesToCreate : List DbTrade
  newDb : List DbTrade
  deriving DecidableEq, Repr

/-- Shallow embedding of one POST /sync run (source lines 326-639), from the
point where the raw orders, FX rates and instrument maps have been fetched
(those fetches are outward HTTP calls; their results are parameters here):
build the dedup set and incremental window from the persisted rows,
reconcile the orders, re-filter by exit time in refresh mode (lines
448-456), cap on initial/first sync (lines 484-489), then transform,
dedup and sequence balances (lines 544-582). `created` counts the rows the
insert loop of lines 602-614 would create when every insert succeeds; the
per-row failure behaviour of that loop is modelled by `syncPersistStep`. -/
def runSync (mode : Mode) (db : List DbTrade) (settings : Option Settings) (nowMs : Int)
    (orders : List RawOrder) (instrumentMap : List (String × String)) (fx : FxRates)
    (instrumentFullMap : List (String × String)) : RunResult :=
  let existingIds := db.filterMap (fun t => t.tradelockerTradeId)
  let syncStart : Option Int :=
    if mode == Mode.refresh then latestSyncedDate db else none
  let allPositions := groupPositionOrders orders instrumentMap fx instrumentFullMap
  let positions :=
    match mode, syncStart with
    | Mode.refresh, some s => allPositions.filter (fun p => decide (s ≤ closeMsOf p))
    | _, _ => allPositions
  let sortedPositions := capStep (shouldCapRun mode existingIds) positions
  let r := dedupLoop existingIds (settingsRiskPercent settings) (settingsRiskReward settings)
    nowMs sortedPositions (settingsStartBal settings)
  { created := r.1.length
    skipped := r.2
    tradesToCreate := r.1
    newDb := db ++ r.1 }

/-- The insert loop of source lines 602-614 with an oracle telling which row
inserts succeed: a failed `prisma.trade.create` throws, the catch swallows
the error (logging only), and the loop continues. -/
def insertLoop (insertOk : Nat → Bool) : List DbTrade → Nat → Nat
  | [], _ => 0
  | _ :: rest, i => (if insertOk i then 1 else 0) + insertLoop insertOk rest (i + 1)

/-- The persist-and-checkpoint step of source lines 602-620: run the insert
loop, then execute `prisma.tradeLockerAccount.update({lastSyncedAt: new
Date()})` — unconditionally, whatever the loop did. The Bool is "the
lastSyncedAt checkpoint was advanced". -/
def syncPersistStep (trades : List DbTrade) (insertOk : Nat → Bool) : Nat × Bool :=
  (insertLoop insertOk trades 0, true)

/-- Bool form of the skip condition of source lines 560-561: the position's
primary or secondary external id is already persisted. -/
def isSkippedBy (ids : List String) (p : Pos) : Bool :=
  decide ((posIdKeyOf p ≠ "" ∧ posIdKeyOf p ∈ ids) ∨ (ordIdKeyOf p ≠ "" ∧ ordIdKeyOf p ∈ ids))

/-- Demo opening fill of the P&L test case: sell 0.19 at 24876.12. -/
def sellOpenOrder : RawOrder :=
  { f0 := some "11", f1 := some "i1", f3 := some (19 / 100), f4 := some "sell",
    f5 := some "market", f6 := some "filled", f8 := some (2487612 / 100),
    f13 := some 100, f15 := some "true", f16 := some "p1" }

/-- Demo closing fill of the P&L test case: close at 24869.41. -/
def sellCloseOrder : RawOrder :=
  { f0 := some "12", f1 := some "i1", f3 := some (19 / 100), f4 := some "buy",
    f5 := some "market", f6 := some "filled", f8 := some (2486941 / 100),
    f13 := some 200, f15 := some "false", f16 := some "p1" }

/-- The single position reconciled from the demo sell round trip. -/
def demoSellPos : Pos := (groupPositionOrders [sellOpenOrder, sellCloseOrder] [] {} []).headD default

/-- An opening fill with no matching closing fill (incomplete round trip). -/
def loneOpeningOrder : RawOrder :=
  { f0 := some "31", f3 := some 1, f4 := some "buy", f6 := some "filled",
    f8 := some 5, f13 := some 10, f15 := some "true", f16 := some "7" }

/-- Opening fill of the bracket-fallback test case: carries no [17]/[19]
stop-loss or take-profit fields. -/
def bracketOpenOrder : RawOrder :=
  { f0 := some "41", f3 := some 1, f4 := some "sell", f5 := some "market",
    f6 := some "filled", f8 := some 100, f13 := some 10, f15 := some "true",
    f16 := some "b1" }

/-- Closing fill of the bracket-fallback test case. -/
def bracketCloseOrder : RawOrder :=
  { f0 := some "42", f6 := some "filled", f8 := some 90, f13 := some 50,
    f15 := some "false", f16 := some "b1" }

/-- Cancelled opposite-side GTC stop bracket at price `sl`. -/
def bracketStopOrder (sl : ℚ) : RawOrder :=
  { f4 := some "buy", f5 := some "stop", f6 := some "cancelled", f9 := some sl,
    f11 := some "GTC", f13 := some 20, f16 := some "b1" }

/-- Cancelled opposite-side GTC limit bracket at price `tp`. -/
def bracketLimitOrder (tp : ℚ) : RawOrder :=
  { f4 := some "buy", f5 := some "limit", f6 := some "cancelled", f9 := some tp,
    f11 := some "GTC", f13 := some 20, f16 := some "b1" }

/-- Order group of the bracket-fallback test case: opening fill without
SL/TP fields, one stop and one limit bracket, closing fill. -/
def bracketDemoOrders (sl tp : ℚ) : List RawOrder :=
  [bracketOpenOrder, bracketStopOrder sl, bracketLimitOrder tp, bracketCloseOrder]

/-- Opening fill number `i` of the idempotence stress input. -/
def idemOpenOrder (i : Nat) : RawOrder :=
  { f0 := some ("o" ++ toString i), f3 := some 1, f4 := some "buy", f6 := some "filled",
    f8 := some 1, f13 := some 1000, f15 := some "true", f16 := some (toString i) }

/-- Closing fill number `i` of the idempotence stress input; every group
closes at the same millisecond 2000. -/
def idemCloseOrder (i : Nat) : RawOrder :=
  { f0 := some ("c" ++ toString i), f6 := some "filled", f8 := some 1,
    f13 := some 2000, f15 := some "false", f16 := some (toString i) }

/-- An upstream order set of 101 complete round trips whose exit times all
coincide. -/
def idemOrders : List RawOrder :=
  ((List.range 101).map (fun i => [idemOpenOrder i, idemCloseOrder i])).flatten

/-- A bare persisted trade row used to seed demo databases. -/
def dbSeedRow : TradeRec :=
  { dateMs := 100, pnl := 0, openBalance := 0, closeBalance := 0, percentGain := 0,
    riskDollar := 0, targetDollar := 0, rrAchieved := 0, targetHit := false,
    result := "Breakeven", stopLoss := none, takeProfit := none,
    tradelockerTradeId := some "z" }

/-- A demo database holding one previously synced trade. -/
def dbSeed : DbTrade := { tradelockerTradeId := some "z", row := dbSeedRow }

/-- Opening fill number `i` of the cap stress input. -/
def capOpenOrder (i : Nat) : RawOrder :=
  { f0 := some ("o" ++ toString i), f3 := some 1, f4 := some "buy", f6 := some "filled",
    f8 := some 1, f13 := some (Int.ofNat i), f15 := some "true", f16 := some (toString i) }

/-- Closing fill number `i` of the cap stress input, closing at time
`i + 10000`. -/
def capCloseOrder (i : Nat) : RawOrder :=
  { f0 := some ("c" ++ toString i), f6 := some "filled", f8 := some 1,
    f13 := some (Int.ofNat i + 10000), f15 := some "false", f16 := some (toString i) }

/-- An upstream order set reconciling to exactly 150 closed positions. -/
def capOrders : List RawOrder :=
  ((List.range 150).map (fun i => [capOpenOrder i, capCloseOrder i])).flatten

/-- A dense-form raw order whose every slot is null/empty. -/
def allMissingOrder : RawOrder := {}

/-- A dense-form raw order whose stop-loss slot [17] is set to the number
zero (and everything else missing). -/
def zeroStopLossOrder : RawOrder := { f17 := some 0 }

/-- Opening fill of the tiny-profit round trip: buy 1 at 1. -/
def tinyOpenOrder : RawOrder :=
  { f0 := some "51", f3 := some 1, f4 := some "buy", f5 := some "market",
    f6 := some "filled", f8 := some 1, f13 := some 10, f15 := some "true",
    f16 := some "w1" }

/-- Closing fill of the tiny-profit round trip: close at 1.001, leaving a
raw profit of 0.001 that 2-decimal rounding sends to 0. -/
def tinyCloseOrder : RawOrder :=
  { f0 := some "52", f6 := some "filled", f8 := some (1001 / 1000), f13 := some 20,
    f15 := some "false", f16 := some "w1" }

/-- The position reconciled from the tiny-profit round trip. -/
def tinyProfitPos : Pos := (groupPositionOrders [tinyOpenOrder, tinyCloseOrder] [] {} []).headD default

/-- Spec-side statement of the fallback SL/TP search (spec step 4): the
price of the first sibling order in the group that is a bracket order —
opposite side from the opening fill, status cancelled/pending/empty,
time-in-force GTC — of the given kind (stop or limit) and carries a
nonzero price; `none` when no such bracket exists. Stated over the whole
group with `List.find?`, to be compared with the source's `applyBrackets`
fold over the pre-filtered bracket list. -/
def firstBracketPrice (kind oppositeSide : String) (g : List RawOrder) : Option ℚ :=
  (g.find? (fun b => isBracket oppositeSide b &&
      (kindOf b == kind && (jsOrNullQ b.f9).isSome))).bind
    (fun b => jsOrNullQ b.f9)

/-- The position window of one sync run: the reconciled positions,
re-filtered by exit time in refresh mode (source lines 449-456) and capped
to the last 100 on initial/first sync (lines 484-493). Matches the
`sortedPositions` value inside `runSync`. -/
def syncWindow (mode : Mode) (db : List DbTrade) (orders : List RawOrder)
    (instrumentMap : List (String × String)) (fx : FxRates)
    (instrumentFullMap : List (String × String)) : List Pos :=
  capStep (shouldCapRun mode (db.filterMap (fun t => t.tradelockerTradeId)))
    (match mode, (if mode == Mode.refresh then latestSyncedDate db else none) with
     | Mode.refresh, some s =>
       (groupPositionOrders orders instrumentMap fx instrumentFullMap).filter
         (fun p => decide (s ≤ closeMsOf p))
     | _, _ => groupPositionOrders orders instrumentMap fx instrumentFullMap)

/-- Response assembled by the sync route (source lines 622-639): the run
outcome together with the account balance fetched at lines 344-350, which
the route returns for informational purposes only (NOTE of lines
356-359). -/
structure SyncResponse where
  result : RunResult
  balance : ℚ
  deriving DecidableEq, Repr

/-- The POST /sync route seen from its response: fetch the account balance,
run the sync, and return both. The fetched balance reaches only the
response object — the run itself never reads it. -/
def postSync (fetchedBalance : ℚ) (mode : Mode) (db : List DbTrade)
    (settings : Option Settings) (nowMs : Int) (orders : List RawOrder)
    (instrumentMap : List (String × String)) (fx : FxRates)
    (instrumentFullMap : List (String × String)) : SyncResponse :=
  { result := runSync mode db settings nowMs orders instrumentMap fx instrumentFullMap
    balance := fetchedBalance }

/-- Opening fill number `j` of the balance-sequencing input, buying one
unit at price `entry`. -/
def seqOpenOrder (j : Nat) (entry : ℚ) : RawOrder :=
  { f3 := some 1, f4 := some "buy", f6 := some "filled", f8 := some entry,
    f13 := some (Int.ofNat j * 10), f15 := some "true", f16 := some (toString j) }

/-- Closing fill number `j` of the balance-sequencing input, closing at
price `exitP`. -/
def seqCloseOrder (j : Nat) (exitP : ℚ) : RawOrder :=
  { f0 := some ("c" ++ toString j), f6 := some "filled", f8 := some exitP,
    f13 := some (Int.ofNat j * 10 + 5), f15 := some "false", f16 := some (toString j) }

/-- Three round trips with gross P&Ls 10.5, −3.25 and 1. -/
def seqOrders : List RawOrder :=
  [seqOpenOrder 1 1, seqCloseOrder 1 (23 / 2),
   seqOpenOrder 2 10, seqCloseOrder 2 (27 / 4),
   seqOpenOrder 3 2, seqCloseOrder 3 3]

/-- Position `j` of the window reconciled from `seqOrders`. -/
def seqWinPos (j : Nat) : Pos :=
  (syncWindow Mode.initial [] seqOrders [] {} []).getD j default

/-- Opening fill of the buy-side bracket test: the primary take-profit [19]
is present (50) but the stop-loss [17] is absent. -/
def buyBracketOpenOrder : RawOrder :=
  { f3 := some 1, f4 := some "buy", f5 := some "market", f6 := some "filled",
    f8 := some 100, f13 := some 10, f15 := some "true", f16 := some "b2",
    f19 := some 50 }

/-- Closing fill of the buy-side bracket test. -/
def buyBracketCloseOrder : RawOrder :=
  { f0 := some "c9", f6 := some "filled", f8 := some 110, f13 := some 20,
    f15 := some "false", f16 := some "b2" }

/-- A pending sell-side GTC stop bracket whose price slot holds 0 — falsy,
so the fallback must skip it. -/
def zeroPriceStopBracket : RawOrder :=
  { f4 := some "sell", f5 := some "stop", f6 := some "pending", f9 := some 0,
    f11 := some "gtc", f16 := some "b2" }

/-- A sell-side GTC stop bracket with no status field (empty status) at
price 90: the first bracket the fallback accepts for the stop loss. -/
def buyStopBracket : RawOrder :=
  { f4 := some "sell", f5 := some "stop", f9 := some 90, f11 := some "GTC",
    f16 := some "b2" }

/-- A pending sell-side GTC limit bracket at price 200; the primary [19]
value must win over it. -/
def buyLimitBracket : RawOrder :=
  { f4 := some "sell", f5 := some "limit", f6 := some "pending", f9 := some 200,
    f11 := some "GTC", f16 := some "b2" }

/-- Order group of the buy-side bracket test: zero-price stop bracket
first, then the real stop bracket, a limit bracket that the primary TP
overrides, and the two fills. -/
def buyBracketDemoOrders : List RawOrder :=
  [buyBracketOpenOrder, zeroPriceStopBracket, buyStopBracket, buyLimitBracket,
    buyBracketCloseOrder]

/-- The position reconciled from the buy-side bracket test. -/
def buyBracketDemoPos : Pos :=
  (groupPositionOrders buyBracketDemoOrders [] {} []).headD default

/-! Helper lemmas: lists, trimming, the stable sort, rounding. -/

theorem dropWhile_idem (p : α → Bool) (l : List α) :
    (l.dropWhile p).dropWhile p = l.dropWhile p := by
  induction l with
  | nil => rfl
  | cons a t ih =>
    by_cases h : p a
    · simp [List.dropWhile_cons, h, ih]
    · simp [List.dropWhile_cons, h]

theorem length_dropWhile_le (p : α → Bool) (l : List α) :
    (l.dropWhile p).length ≤ l.length := by
  induction l with
  | nil => simp
  | cons a t ih =>
    rw [List.dropWhile_cons]
    split
    · exact Nat.le_succ_of_le ih
    · simp

theorem dropWhile_append_eq_self (p : α → Bool) (x y : List α)
    (h : (x ++ y).dropWhile p = x ++ y) : x.dropWhile p = x := by
  cases x with
  | nil => rfl
  | cons c x' =>
    rw [List.cons_append, List.dropWhile_cons] at h
    by_cases hc : p c
    · exfalso
      rw [if_pos hc] at h
      have hlen := congrArg List.length h
      have hle := length_dropWhile_le p (x' ++ y)
      simp only [List.length_cons, List.length_append] at hlen hle
      omega
    · rw [List.dropWhile_cons, if_neg hc]

theorem trimChars_idem (l : List Char) : trimChars (trimChars l) = trimChars l := by
  have hdecomp : trimChars l ++ ((l.dropWhile isJsWs).reverse.takeWhile isJsWs).reverse
      = l.dropWhile isJsWs := by
    unfold trimChars
    rw [← List.reverse_append, List.takeWhile_append_dropWhile, List.reverse_reverse]
  have step1 : (trimChars l).dropWhile isJsWs = trimChars l := by
    apply dropWhile_append_eq_self isJsWs _ (((l.dropWhile isJsWs).reverse.takeWhile isJsWs).reverse)
    rw [hdecomp]
    exact dropWhile_idem _ l
  have hrev : (trimChars l).reverse = (l.dropWhile isJsWs).reverse.dropWhile isJsWs := by
    unfold trimChars
    rw [List.reverse_reverse]
  show (((trimChars l).dropWhile isJsWs).reverse.dropWhile isJsWs).reverse = trimChars l
  rw [step1, hrev, dropWhile_idem, ← hrev, List.reverse_reverse]

theorem jsTrim_idem (s : String) : jsTrim (jsTrim s) = jsTrim s := by
  show (⟨trimChars (String.data ⟨trimChars s.data⟩)⟩ : String) = ⟨trimChars s.data⟩
  have h : String.data ⟨trimChars s.data⟩ = trimChars s.data := rfl
  rw [h, trimChars_idem]

theorem mem_insertSorted (le : α → α → Bool) (x : α) (l : List α) (a : α) :
    a ∈ insertSorted le x l ↔ a = x ∨ a ∈ l := by
  induction l with
  | nil => simp [insertSorted]
  | cons y ys ih =>
    unfold insertSorted
    split
    · simp [List.mem_cons]
    · simp only [List.mem_cons, ih]
      tauto

theorem mem_stableSort (le : α → α → Bool) (l : List α) (a : α) :
    a ∈ stableSort le l ↔ a ∈ l := by
  induction l with
  | nil => simp [stableSort]
  | cons x xs ih => simp [stableSort, mem_insertSorted, ih, List.mem_cons]

theorem length_insertSorted (le : α → α → Bool) (x : α) (l : List α) :
    (insertSorted le x l).length = l.length + 1 := by
  induction l with
  | nil => rfl
  | cons y ys ih =>
    unfold insertSorted
    split
    · simp
    · simp [ih]

theorem length_stableSort (le : α → α → Bool) (l : List α) :
    (stableSort le l).length = l.length := by
  induction l with
  | nil => rfl
  | cons x xs ih => simp [stableSort, length_insertSorted, ih]

theorem pairwise_insertSorted (le : α → α → Bool)
    (htrans : ∀ a b c, le a b = true → le b c = true → le a c = true)
    (htot : ∀ a b, le a b = true ∨ le b a = true)
    (x : α) (l : List α) (h : l.Pairwise (fun a b => le a b = true)) :
    (insertSorted le x l).Pairwise (fun a b => le a b = true) := by
  induction l with
  | nil => simp [insertSorted]
  | cons y ys ih =>
    rw [List.pairwise_cons] at h
    obtain ⟨hy, hys⟩ := h
    unfold insertSorted
    split
    case isTrue hxy =>
      rw [List.pairwise_cons]
      refine ⟨?_, ?_⟩
      · intro b hb
        rcases List.mem_cons.mp hb with rfl | hb'
        · exact hxy
        · exact htrans x y b hxy (hy b hb')
      · rw [List.pairwise_cons]
        exact ⟨hy, hys⟩
    case isFalse hxy =>
      rw [List.pairwise_cons]
      refine ⟨?_, ih hys⟩
      intro b hb
      rcases (mem_insertSorted le x ys b).mp hb with rfl | hb'
      · rcases htot y b with h' | h'
        · exact h'
        · exact absurd h' hxy
      · exact hy b hb'

theorem pairwise_stableSort (le : α → α → Bool)
    (htrans : ∀ a b c, le a b = true → le b c = true → le a c = true)
    (htot : ∀ a b, le a b = true ∨ le b a = true) (l : List α) :
    (stableSort le l).Pairwise (fun a b => le a b = true) := by
  induction l with
  | nil => simp [stableSort]
  | cons x xs ih => exact pairwise_insertSorted le htrans htot x _ ih

theorem round2_intCast (n : ℤ) : round2 ((n : ℚ) / 100) = (n : ℚ) / 100 := by
  unfold round2
  rw [div_mul_cancel₀ _ (by norm_num : (100 : ℚ) ≠ 0), round_intCast]

theorem round2_fixed (x : ℚ) (h : round2 x = x) : ∃ n : ℤ, x = (n : ℚ) / 100 :=
  ⟨round (x * 100), h.symm⟩

theorem round2_idem (x : ℚ) : round2 (round2 x) = round2 x := round2_intCast _

theorem round2_add_fixed (a b : ℚ) (ha : round2 a = a) :
    round2 (a + b) = a + round2 b := by
  obtain ⟨n, rfl⟩ := round2_fixed a ha
  unfold round2
  rw [add_mul, div_mul_cancel₀ _ (by norm_num : (100 : ℚ) ≠ 0), add_comm ((n : ℚ)) (b * 100),
    round_add_int]
  push_cast
  ring

theorem round2_ne_zero_bound (x : ℚ) (hfix : round2 x = x) (hx : x ≠ 0) :
    ¬ (|x| < 1 / 10000) := by
  obtain ⟨n, rfl⟩ := round2_fixed x hfix
  intro habs
  have hn : n ≠ 0 := by
    intro h
    apply hx
    simp [h]
  have h1 : (1 : ℚ) ≤ |(n : ℚ)| := by
    have := Int.one_le_abs hn
    calc (1 : ℚ) = ((1 : ℤ) : ℚ) := by norm_num
    _ ≤ ((|n| : ℤ) : ℚ) := by exact_mod_cast this
    _ = |(n : ℚ)| := by push_cast; ring
  rw [abs_div] at habs
  have h100 : |(100 : ℚ)| = 100 := by norm_num
  rw [h100] at habs
  nlinarith

theorem latestStep_mono (db : List DbTrade) (m : Int) :
    ∃ m', db.foldl latestStep (some m) = some m' ∧ m ≤ m' := by
  induction db generalizing m with
  | nil => exact ⟨m, rfl, le_refl m⟩
  | cons t rest ih =>
    rw [List.foldl_cons]
    cases htl : t.tradelockerTradeId with
    | none =>
      have hstep : latestStep (some m) t = some m := by
        unfold latestStep
        rw [htl]
      rw [hstep]
      exact ih m
    | some v =>
      have hstep : latestStep (some m) t = some (max m t.row.dateMs) := by
        unfold latestStep
        rw [htl]
      rw [hstep]
      obtain ⟨m', hm', hle⟩ := ih (max m t.row.dateMs)
      exact ⟨m', hm', le_trans (le_max_left _ _) hle⟩

theorem latestSyncedDate_isSome (db : List DbTrade)
    (h : ∃ t ∈ db, t.tradelockerTradeId.isSome) :
    ∃ m, latestSyncedDate db = some m := by
  unfold latestSyncedDate
  induction db with
  | nil => simp at h
  | cons t rest ih =>
    rw [List.foldl_cons]
    cases htl : t.tradelockerTradeId with
    | none =>
      have hstep : latestStep none t = none := by
        unfold latestStep
        rw [htl]
      rw [hstep]
      apply ih
      obtain ⟨u, hu, hsome⟩ := h
      rcases List.mem_cons.mp hu with rfl | hu'
      · rw [htl] at hsome
        simp at hsome
      · exact ⟨u, hu', hsome⟩
    | some v =>
      have hstep : latestStep none t = some t.row.dateMs := by
        unfold latestStep
        rw [htl]
      rw [hstep]
      obtain ⟨m', hm', _⟩ := latestStep_mono rest t.row.dateMs
      exact ⟨m', hm'⟩

theorem latestSyncedDate_append_ge (db ext : List DbTrade) (m : Int)
    (h : latestSyncedDate db = some m) :
    ∃ m', latestSyncedDate (db ++ ext) = some m' ∧ m ≤ m' := by
  unfold latestSyncedDate at h ⊢
  rw [List.foldl_append, h]
  exact latestStep_mono ext m

theorem insertGroup_key (gs : List (String × List RawOrder)) (k : String) (o : RawOrder)
    (kv : String × List RawOrder) (h : kv ∈ insertGroup gs k o) :
    kv.1 = k ∨ ∃ os, (kv.1, os) ∈ gs := by
  induction gs with
  | nil =>
    unfold insertGroup at h
    rcases List.mem_singleton.mp h with rfl
    exact Or.inl rfl
  | cons g rest ih =>
    obtain ⟨k', os⟩ := g
    unfold insertGroup at h
    by_cases hk : k' = k
    · rw [if_pos hk] at h
      rcases List.mem_cons.mp h with rfl | h'
      · exact Or.inl hk
      · exact Or.inr ⟨kv.2, List.mem_cons_of_mem _ (by simpa using h')⟩
    · rw [if_neg hk] at h
      rcases List.mem_cons.mp h with rfl | h'
      · exact Or.inr ⟨os, List.mem_cons_self _ _⟩
      · rcases ih h' with h'' | ⟨os', hos'⟩
        · exact Or.inl h''
        · exact Or.inr ⟨os', List.mem_cons_of_mem _ hos'⟩

theorem insertGroup_inv (P : String → RawOrder → Prop)
    (gs : List (String × List RawOrder)) (k : String) (o : RawOrder)
    (hgs : ∀ kv ∈ gs, ∀ o' ∈ kv.2, P kv.1 o') (ho : P k o) :
    ∀ kv ∈ insertGroup gs k o, ∀ o' ∈ kv.2, P kv.1 o' := by
  induction gs with
  | nil =>
    intro kv hkv o' ho'
    unfold insertGroup at hkv
    rcases List.mem_singleton.mp hkv with rfl
    rcases List.mem_singleton.mp ho' with rfl
    exact ho
  | cons g rest ih =>
    obtain ⟨k', os⟩ := g
    intro kv hkv o' ho'
    unfold insertGroup at hkv
    by_cases hk : k' = k
    · rw [if_pos hk] at hkv
      rcases List.mem_cons.mp hkv with rfl | h'
      · rcases List.mem_append.mp ho' with hin | hsing
        · exact hgs (k', os) (List.mem_cons_self _ _) o' hin
        · rcases List.mem_singleton.mp hsing with rfl
          exact hk ▸ ho
      · exact hgs kv (List.mem_cons_of_mem _ h') o' ho'
    · rw [if_neg hk] at hkv
      rcases List.mem_cons.mp hkv with rfl | h'
      · exact hgs (k', os) (List.mem_cons_self _ _) o' ho'
      · exact ih (fun kv' hkv' => hgs kv' (List.mem_cons_of_mem _ hkv')) kv h' o' ho'

theorem buildGroupsAux_inv (P : String → RawOrder → Prop)
    (orders : List RawOrder) (gs : List (String × List RawOrder))
    (hgs : ∀ kv ∈ gs, ∀ o ∈ kv.2, P kv.1 o)
    (hord : ∀ o ∈ orders, ∀ k, orderKey o = some k → P k o) :
    ∀ kv ∈ buildGroupsAux gs orders, ∀ o ∈ kv.2, P kv.1 o := by
  induction orders generalizing gs with
  | nil => exact hgs
  | cons o rest ih =>
    unfold buildGroupsAux
    cases hko : orderKey o with
    | none =>
      exact ih gs hgs (fun o' ho' k hk => hord o' (List.mem_cons_of_mem _ ho') k hk)
    | some k =>
      apply ih
      · exact insertGroup_inv P gs k o hgs (hord o (List.mem_cons_self _ _) k hko)
      · exact fun o' ho' k' hk' => hord o' (List.mem_cons_of_mem _ ho') k' hk'

theorem buildGroupsAux_keys (Q : String → Prop)
    (orders : List RawOrder) (gs : List (String × List RawOrder))
    (hgs : ∀ kv ∈ gs, Q kv.1)
    (hord : ∀ (o : RawOrder) (k : String), orderKey o = some k → Q k) :
    ∀ kv ∈ buildGroupsAux gs orders, Q kv.1 := by
  induction orders generalizing gs with
  | nil => exact hgs
  | cons o rest ih =>
    unfold buildGroupsAux
    cases hko : orderKey o with
    | none => exact ih gs hgs
    | some k =>
      apply ih
      intro kv hkv
      rcases insertGroup_key gs k o kv hkv with rfl | ⟨os, hos⟩
      · exact hord o kv.1 hko
      · exact hgs (kv.1, os) hos

theorem buildGroups_mem_orders (orders : List RawOrder) :
    ∀ kv ∈ buildGroups orders, ∀ o ∈ kv.2, o ∈ orders ∧ orderKey o = some kv.1 := by
  apply buildGroupsAux_inv (fun k o => o ∈ orders ∧ orderKey o = some k)
  · intro kv hkv
    simp at hkv
  · exact fun o ho k hk => ⟨ho, hk⟩

theorem buildGroups_keys (orders : List RawOrder) :
    ∀ kv ∈ buildGroups orders, jsTrim kv.1 = kv.1 ∧ kv.1 ≠ "" := by
  apply buildGroupsAux_keys (fun k => jsTrim k = k ∧ k ≠ "")
  · intro kv hkv
    simp at hkv
  · intro o k hk
    unfold orderKey at hk
    by_cases hempty : jsTrim (o.f16.getD "") = ""
    · rw [if_pos hempty] at hk
      simp at hk
    · rw [if_neg hempty] at hk
      rcases Option.some.inj hk with rfl
      exact ⟨jsTrim_idem _, hempty⟩

theorem groupPositionOrders_mem_decomp (orders : List RawOrder)
    (im ifm : List (String × String)) (fx : FxRates) (p : Pos)
    (h : p ∈ groupPositionOrders orders im fx ifm) :
    ∃ kv ∈ buildGroups orders, buildPosition kv.1 kv.2 im fx ifm = some p := by
  unfold groupPositionOrders at h
  rw [mem_stableSort] at h
  exact List.mem_filterMap.mp h

theorem buildPosition_eq_some (k : String) (os : List RawOrder)
    (im ifm : List (String × String)) (fx : FxRates) (p : Pos)
    (h : buildPosition k os im fx ifm = some p) :
    ∃ o c, p = buildPositionCore o c k os im fx ifm ∧
      o ∈ os.filter isFilledOpening ∧ c ∈ os.filter isFilledClosing := by
  unfold buildPosition at h
  simp only [] at h
  cases h1 : stableSort (fun a b => decide (createdOf a ≤ createdOf b))
      (os.filter isFilledOpening) with
  | nil =>
    rw [h1] at h
    cases h2 : stableSort (fun a b => decide (createdOf b ≤ createdOf a))
        (os.filter isFilledClosing) <;> rw [h2] at h <;> exact absurd h (by simp)
  | cons o rest =>
    cases h2 : stableSort (fun a b => decide (createdOf b ≤ createdOf a))
        (os.filter isFilledClosing) with
    | nil => rw [h1, h2] at h; exact absurd h (by simp)
    | cons c rest2 =>
      rw [h1, h2] at h
      have hp : buildPositionCore o c k os im fx ifm = p := Option.some.inj h
      refine ⟨o, c, hp.symm, ?_, ?_⟩
      · rw [← mem_stableSort (fun a b => decide (createdOf a ≤ createdOf b))
          (os.filter isFilledOpening), h1]
        exact List.mem_cons_self _ _
      · rw [← mem_stableSort (fun a b => decide (createdOf b ≤ createdOf a))
          (os.filter isFilledClosing), h2]
        exact List.mem_cons_self _ _

theorem buildPosition_none_of_incomplete (k : String) (os : List RawOrder)
    (im ifm : List (String × String)) (fx : FxRates)
    (h : os.filter isFilledOpening = [] ∨ os.filter isFilledClosing = []) :
    buildPosition k os im fx ifm = none := by
  unfold buildPosition
  simp only []
  rcases h with h | h
  · rw [h]
    show (match ([] : List RawOrder),
        stableSort (fun a b => decide (createdOf b ≤ createdOf a))
          (os.filter isFilledClosing) with
      | o :: _, c :: _ => some (buildPositionCore o c k os im fx ifm)
      | _, _ => none) = none
    cases stableSort (fun a b => decide (createdOf b ≤ createdOf a))
      (os.filter isFilledClosing) <;> rfl
  · rw [h]
    show (match stableSort (fun a b => decide (createdOf a ≤ createdOf b))
          (os.filter isFilledOpening), ([] : List RawOrder) with
      | o :: _, c :: _ => some (buildPositionCore o c k os im fx ifm)
      | _, _ => none) = none
    cases stableSort (fun a b => decide (createdOf a ≤ createdOf b))
      (os.filter isFilledOpening) <;> rfl

theorem buildPositionCore_positionId (o c : RawOrder) (k : String) (os : List RawOrder)
    (im ifm : List (String × String)) (fx : FxRates) :
    (buildPositionCore o c k os im fx ifm).positionId = k := rfl

theorem buildPositionCore_profit (o c : RawOrder) (k : String) (os : List RawOrder)
    (im ifm : List (String × String)) (fx : FxRates) :
    (buildPositionCore o c k os im fx ifm).profit =
      round2
        (if (buildPositionCore o c k os im fx ifm).openPrice > 0 ∧
            (buildPositionCore o c k os im fx ifm).exitPrice > 0 ∧
            (buildPositionCore o c k os im fx ifm).qty > 0 then
          (if (buildPositionCore o c k os im fx ifm).side = "sell" then
            (buildPositionCore o c k os im fx ifm).openPrice -
              (buildPositionCore o c k os im fx ifm).exitPrice
          else
            (buildPositionCore o c k os im fx ifm).exitPrice -
              (buildPositionCore o c k os im fx ifm).openPrice) *
            (buildPositionCore o c k os im fx ifm).qty *
            getContractMultiplier
              ((im.lookup (buildPositionCore o c k os im fx ifm).tradableInstrumentId).getD "")
              fx
              ((ifm.lookup (buildPositionCore o c k os im fx ifm).tradableInstrumentId).getD "")
        else 0) := rfl

theorem groupPositionOrders_posId (orders : List RawOrder)
    (im ifm : List (String × String)) (fx : FxRates) (p : Pos)
    (h : p ∈ groupPositionOrders orders im fx ifm) :
    posIdKeyOf p = p.positionId ∧ p.positionId ≠ "" := by
  obtain ⟨kv, hkv, hbp⟩ := groupPositionOrders_mem_decomp orders im ifm fx p h
  obtain ⟨o, c, rfl, -, -⟩ := buildPosition_eq_some kv.1 kv.2 im ifm fx p hbp
  obtain ⟨hfix, hne⟩ := buildGroups_keys orders kv hkv
  rw [buildPositionCore_positionId]
  unfold posIdKeyOf
  rw [buildPositionCore_positionId]
  exact ⟨hfix, hne⟩

theorem groupPositionOrders_sorted (orders : List RawOrder)
    (im ifm : List (String × String)) (fx : FxRates) :
    (groupPositionOrders orders im fx ifm).Pairwise
      (fun a b => closeMsOf a ≤ closeMsOf b) := by
  unfold groupPositionOrders
  have h := pairwise_stableSort (fun a b : Pos => decide (closeMsOf a ≤ closeMsOf b))
    (fun a b c hab hbc =>
      decide_eq_true (le_trans (of_decide_eq_true hab) (of_decide_eq_true hbc)))
    (fun a b => by
      rcases Int.le_total (closeMsOf a) (closeMsOf b) with h | h
      · exact Or.inl (decide_eq_true h)
      · exact Or.inr (decide_eq_true h))
    ((buildGroups orders).filterMap
      (fun g => buildPosition g.1 g.2 im fx ifm))
  exact h.imp (fun hab => of_decide_eq_true hab)

theorem applyBrackets_cons (b : RawOrder) (l : List RawOrder) (sl tp : Option ℚ) :
    applyBrackets (b :: l) sl tp =
      applyBrackets l
        (match jsOrNullQ b.f9 with
         | none => sl
         | some price => if kindOf b == "stop" && sl == none then some price else sl)
        (match jsOrNullQ b.f9 with
         | none => tp
         | some price => if kindOf b == "limit" && tp == none then some price else tp) := by
  unfold applyBrackets
  simp only [List.foldl_cons]
  cases jsOrNullQ b.f9 <;> rfl

theorem applyBrackets_fst_keep (l : List RawOrder) (v : ℚ) (tp : Option ℚ) :
    (applyBrackets l (some v) tp).1 = some v := by
  induction l generalizing tp with
  | nil => rfl
  | cons b l ih =>
    rw [applyBrackets_cons]
    cases jsOrNullQ b.f9 with
    | none => exact ih _
    | some price => cases kindOf b == "stop" <;> exact ih _

theorem applyBrackets_snd_keep (l : List RawOrder) (v : ℚ) (sl : Option ℚ) :
    (applyBrackets l sl (some v)).2 = some v := by
  induction l generalizing sl with
  | nil => rfl
  | cons b l ih =>
    rw [applyBrackets_cons]
    cases jsOrNullQ b.f9 with
    | none => exact ih _
    | some price => cases kindOf b == "limit" <;> exact ih _

theorem applyBrackets_fst_search (l : List RawOrder) (tp : Option ℚ) :
    (applyBrackets l none tp).1 =
      (l.find? (fun b => kindOf b == "stop" && (jsOrNullQ b.f9).isSome)).bind
        (fun b => jsOrNullQ b.f9) := by
  induction l generalizing tp with
  | nil => rfl
  | cons b l ih =>
    rw [applyBrackets_cons]
    cases hb : jsOrNullQ b.f9 with
    | none =>
      rw [List.find?_cons_of_neg _ (by simp [hb])]
      exact ih _
    | some price =>
      cases hk : kindOf b == "stop" with
      | false =>
        rw [List.find?_cons_of_neg _ (by simp [hk])]
        exact ih _
      | true =>
        rw [List.find?_cons_of_pos _ (by simp [hk, hb])]
        exact (applyBrackets_fst_keep l price _).trans hb.symm

theorem applyBrackets_snd_search (l : List RawOrder) (sl : Option ℚ) :
    (applyBrackets l sl none).2 =
      (l.find? (fun b => kindOf b == "limit" && (jsOrNullQ b.f9).isSome)).bind
        (fun b => jsOrNullQ b.f9) := by
  induction l generalizing sl with
  | nil => rfl
  | cons b l ih =>
    rw [applyBrackets_cons]
    cases hb : jsOrNullQ b.f9 with
    | none =>
      rw [List.find?_cons_of_neg _ (by simp [hb])]
      exact ih _
    | some price =>
      cases hk : kindOf b == "limit" with
      | false =>
        rw [List.find?_cons_of_neg _ (by simp [hk])]
        exact ih _
      | true =>
        rw [List.find?_cons_of_pos _ (by simp [hk, hb])]
        exact (applyBrackets_snd_keep l price _).trans hb.symm

theorem findq_filter (l : List α) (p q : α → Bool) :
    (l.filter p).find? q = l.find? (fun a => p a && q a) := by
  induction l with
  | nil => rfl
  | cons a l ih =>
    cases hp : p a with
    | true =>
      rw [List.filter_cons_of_pos hp]
      cases hq : q a with
      | true =>
        rw [List.find?_cons_of_pos _ hq, List.find?_cons_of_pos _ (by simp [hp, hq])]
      | false =>
        rw [List.find?_cons_of_neg _ (by simp [hq]),
          List.find?_cons_of_neg _ (by simp [hp, hq])]
        exact ih
    | false =>
      rw [List.filter_cons_of_neg (by simp [hp]),
        List.find?_cons_of_neg _ (by simp [hp])]
      exact ih

theorem buildPositionCore_stopLoss (o c : RawOrder) (k : String) (os : List RawOrder)
    (im ifm : List (String × String)) (fx : FxRates) :
    (buildPositionCore o c k os im fx ifm).stopLoss =
      (applyBrackets (os.filter (isBracket (if sideOf o = "sell" then "buy" else "sell")))
        (jsOrNullQ o.f17) (jsOrNullQ o.f19)).1 := rfl

theorem buildPositionCore_takeProfit (o c : RawOrder) (k : String) (os : List RawOrder)
    (im ifm : List (String × String)) (fx : FxRates) :
    (buildPositionCore o c k os im fx ifm).takeProfit =
      (applyBrackets (os.filter (isBracket (if sideOf o = "sell" then "buy" else "sell")))
        (jsOrNullQ o.f17) (jsOrNullQ o.f19)).2 := rfl

theorem buildPositionCore_side (o c : RawOrder) (k : String) (os : List RawOrder)
    (im ifm : List (String × String)) (fx : FxRates) :
    (buildPositionCore o c k os im fx ifm).side = sideOf o := rfl

theorem runSync_tradesToCreate (mode : Mode) (db : List DbTrade)
    (settings : Option Settings) (now : Int) (orders : List RawOrder)
    (im : List (String × String)) (fx : FxRates) (ifm : List (String × String)) :
    (runSync mode db settings now orders im fx ifm).tradesToCreate =
      (dedupLoop (db.filterMap (fun t => t.tradelockerTradeId))
        (settingsRiskPercent settings) (settingsRiskReward settings) now
        (syncWindow mode db orders im fx ifm) (settingsStartBal settings)).1 := rfl

theorem isSkippedBy_of_posId (ids : List String) (p : Pos)
    (h1 : posIdKeyOf p ≠ "") (h2 : posIdKeyOf p ∈ ids) : isSkippedBy ids p = true :=
  decide_eq_true (Or.inl ⟨h1, h2⟩)

theorem isSkippedBy_mono (ids ids' : List String) (p : Pos)
    (hsub : ∀ x ∈ ids, x ∈ ids') (h : isSkippedBy ids p = true) :
    isSkippedBy ids' p = true := by
  apply decide_eq_true
  rcases of_decide_eq_true h with ⟨h1, h2⟩ | ⟨h1, h2⟩
  · exact Or.inl ⟨h1, hsub _ h2⟩
  · exact Or.inr ⟨h1, hsub _ h2⟩

theorem dedupLoop_skip_all (ids : List String) (rp rr : ℚ) (now : Int)
    (ps : List Pos) (bal : ℚ)
    (h : ∀ p ∈ ps, isSkippedBy ids p = true) :
    (dedupLoop ids rp rr now ps bal).1 = [] := by
  induction ps generalizing bal with
  | nil => rfl
  | cons p rest ih =>
    have hrest : ∀ q ∈ rest, isSkippedBy ids q = true :=
      fun q hq => h q (List.mem_cons_of_mem _ hq)
    have hp := of_decide_eq_true (h p (List.mem_cons_self _ _))
    unfold dedupLoop
    by_cases hA : posIdKeyOf p ≠ "" ∧ posIdKeyOf p ∈ ids
    · rw [if_pos hA]
      exact ih bal hrest
    · rw [if_neg hA]
      have hB : ordIdKeyOf p ≠ "" ∧ ordIdKeyOf p ∈ ids := hp.resolve_left hA
      rw [if_pos hB]
      exact ih bal hrest

theorem dedupLoop_covers (ids : List String) (rp rr : ℚ) (now : Int)
    (ps : List Pos) (bal : ℚ) (p : Pos) (hmem : p ∈ ps) :
    isSkippedBy ids p = true ∨
      ∃ t ∈ (dedupLoop ids rp rr now ps bal).1,
        t.tradelockerTradeId = tradeLockerIdOf p := by
  induction ps generalizing bal with
  | nil => simp at hmem
  | cons q rest ih =>
    rcases List.mem_cons.mp hmem with rfl | hmem'
    · by_cases hA : posIdKeyOf p ≠ "" ∧ posIdKeyOf p ∈ ids
      · exact Or.inl (decide_eq_true (Or.inl hA))
      · by_cases hB : ordIdKeyOf p ≠ "" ∧ ordIdKeyOf p ∈ ids
        · exact Or.inl (decide_eq_true (Or.inr hB))
        · right
          unfold dedupLoop
          rw [if_neg hA, if_neg hB]
          exact ⟨_, List.mem_cons_self _ _, rfl⟩
    · by_cases hA : posIdKeyOf q ≠ "" ∧ posIdKeyOf q ∈ ids
      · unfold dedupLoop
        rw [if_pos hA]
        exact ih bal hmem'
      · by_cases hB : ordIdKeyOf q ≠ "" ∧ ordIdKeyOf q ∈ ids
        · unfold dedupLoop
          rw [if_neg hA, if_pos hB]
          exact ih bal hmem'
        · unfold dedupLoop
          rw [if_neg hA, if_neg hB]
          rcases ih (transformTradeLockerTrade q bal rp rr now).closeBalance hmem' with
            h | ⟨t, ht, he⟩
          · exact Or.inl h
          · exact Or.inr ⟨t, List.mem_cons_of_mem _ ht, he⟩

theorem runSync_refresh_eq (db : List DbTrade) (settings : Option Settings) (now : Int)
    (orders : List RawOrder) (im ifm : List (String × String)) (fx : FxRates) (m : Int)
    (hm : latestSyncedDate db = some m)
    (hne : db.filterMap (fun t => t.tradelockerTradeId) ≠ []) :
    runSync Mode.refresh db settings now orders im fx ifm =
      { created :=
          (dedupLoop (db.filterMap (fun t => t.tradelockerTradeId))
              (settingsRiskPercent settings) (settingsRiskReward settings) now
              ((groupPositionOrders orders im fx ifm).filter
                (fun p => decide (m ≤ closeMsOf p)))
              (settingsStartBal settings)).1.length
        skipped :=
          (dedupLoop (db.filterMap (fun t => t.tradelockerTradeId))
              (settingsRiskPercent settings) (settingsRiskReward settings) now
              ((groupPositionOrders orders im fx ifm).filter
                (fun p => decide (m ≤ closeMsOf p)))
              (settingsStartBal settings)).2
        tradesToCreate :=
          (dedupLoop (db.filterMap (fun t => t.tradelockerTradeId))
              (settingsRiskPercent settings) (settingsRiskReward settings) now
              ((groupPositionOrders orders im fx ifm).filter
                (fun p => decide (m ≤ closeMsOf p)))
              (settingsStartBal settings)).1
        newDb :=
          db ++
            (dedupLoop (db.filterMap (fun t => t.tradelockerTradeId))
                (settingsRiskPercent settings) (settingsRiskReward settings) now
                ((groupPositionOrders orders im fx ifm).filter
                  (fun p => decide (m ≤ closeMsOf p)))
                (settingsStartBal settings)).1 } := by
  have hie : (db.filterMap (fun t => t.tradelockerTradeId)).isEmpty = false := by
    cases hh : (db.filterMap (fun t => t.tradelockerTradeId)).isEmpty with
    | false => rfl
    | true => exact absurd (List.isEmpty_iff.mp hh) hne
  unfold runSync
  simp only [hm, hie, shouldCapRun, capStep]
  rfl

/-- C3 (amended), core statement: a refresh run that starts from a database
already holding at least one synced external id, followed by a second
refresh run over the same upstream order set, creates zero records on the
second run. -/
theorem refresh_second_run_zero (db : List DbTrade) (settings : Option Settings)
    (now1 now2 : Int) (orders : List RawOrder) (im ifm : List (String × String))
    (fx : FxRates)
    (hdb : db.filterMap (fun t => t.tradelockerTradeId) ≠ []) :
    (runSync Mode.refresh (runSync Mode.refresh db settings now1 orders im fx ifm).newDb
      settings now2 orders im fx ifm).created = 0 := by
  obtain ⟨m1, hm1⟩ := latestSyncedDate_isSome db (by
    obtain ⟨x, hx⟩ := List.exists_mem_of_ne_nil _ hdb
    obtain ⟨t, ht, hft⟩ := List.mem_filterMap.mp hx
    refine ⟨t, ht, ?_⟩
    rw [hft]
    rfl)
  have h1 := runSync_refresh_eq db settings now1 orders im ifm fx m1 hm1 hdb
  have hnewDb : (runSync Mode.refresh db settings now1 orders im fx ifm).newDb =
      db ++ (dedupLoop (db.filterMap (fun t => t.tradelockerTradeId))
          (settingsRiskPercent settings) (settingsRiskReward settings) now1
          ((groupPositionOrders orders im fx ifm).filter
            (fun p => decide (m1 ≤ closeMsOf p)))
          (settingsStartBal settings)).1 := by
    rw [h1]
  have hdb2 : (db ++ (dedupLoop (db.filterMap (fun t => t.tradelockerTradeId))
          (settingsRiskPercent settings) (settingsRiskReward settings) now1
          ((groupPositionOrders orders im fx ifm).filter
            (fun p => decide (m1 ≤ closeMsOf p)))
          (settingsStartBal settings)).1).filterMap (fun t => t.tradelockerTradeId) =
      db.filterMap (fun t => t.tradelockerTradeId) ++
        ((dedupLoop (db.filterMap (fun t => t.tradelockerTradeId))
          (settingsRiskPercent settings) (settingsRiskReward settings) now1
          ((groupPositionOrders orders im fx ifm).filter
            (fun p => decide (m1 ≤ closeMsOf p)))
          (settingsStartBal settings)).1).filterMap (fun t => t.tradelockerTradeId) := by
    rw [List.filterMap_append]
  have hdb2ne : (db ++ (dedupLoop (db.filterMap (fun t => t.tradelockerTradeId))
          (settingsRiskPercent settings) (settingsRiskReward settings) now1
          ((groupPositionOrders orders im fx ifm).filter
            (fun p => decide (m1 ≤ closeMsOf p)))
          (settingsStartBal settings)).1).filterMap (fun t => t.tradelockerTradeId) ≠ [] := by
    rw [hdb2]
    intro hcon
    exact hdb (List.append_eq_nil.mp hcon).1
  obtain ⟨m2, hm2, hle⟩ := latestSyncedDate_append_ge db
    ((dedupLoop (db.filterMap (fun t => t.tradelockerTradeId))
      (settingsRiskPercent settings) (settingsRiskReward settings) now1
      ((groupPositionOrders orders im fx ifm).filter
        (fun p => decide (m1 ≤ closeMsOf p)))
      (settingsStartBal settings)).1) m1 hm1
  have h2 := runSync_refresh_eq (db ++ (dedupLoop (db.filterMap (fun t => t.tradelockerTradeId))
      (settingsRiskPercent settings) (settingsRiskReward settings) now1
      ((groupPositionOrders orders im fx ifm).filter
        (fun p => decide (m1 ≤ closeMsOf p)))
      (settingsStartBal settings)).1) settings now2 orders im ifm fx m2 hm2 hdb2ne
  rw [hnewDb, h2]
  have hskip : ∀ p ∈ (groupPositionOrders orders im fx ifm).filter
      (fun p => decide (m2 ≤ closeMsOf p)),
      isSkippedBy ((db ++ (dedupLoop (db.filterMap (fun t => t.tradelockerTradeId))
          (settingsRiskPercent settings) (settingsRiskReward settings) now1
          ((groupPositionOrders orders im fx ifm).filter
            (fun p => decide (m1 ≤ closeMsOf p)))
          (settingsStartBal settings)).1).filterMap (fun t => t.tradelockerTradeId)) p
        = true := by
    intro p hp
    obtain ⟨hmemAll, hdec⟩ := List.mem_filter.mp hp
    have hm2le : m2 ≤ closeMsOf p := of_decide_eq_true hdec
    have hmem1 : p ∈ (groupPositionOrders orders im fx ifm).filter
        (fun p => decide (m1 ≤ closeMsOf p)) :=
      List.mem_filter.mpr ⟨hmemAll, decide_eq_true (le_trans hle hm2le)⟩
    have hpos := groupPositionOrders_posId orders im ifm fx p hmemAll
    rcases dedupLoop_covers (db.filterMap (fun t => t.tradelockerTradeId))
        (settingsRiskPercent settings) (settingsRiskReward settings) now1
        ((groupPositionOrders orders im fx ifm).filter
          (fun p => decide (m1 ≤ closeMsOf p)))
        (settingsStartBal settings) p hmem1 with hsk | ⟨t, ht, htl⟩
    · apply isSkippedBy_mono (db.filterMap (fun t => t.tradelockerTradeId)) _ p _ hsk
      intro x hx
      rw [hdb2]
      exact List.mem_append_left _ hx
    · have hkey : tradeLockerIdOf p = some (posIdKeyOf p) := by
        unfold tradeLockerIdOf
        rw [if_pos (by rw [hpos.1]; exact hpos.2)]
      apply isSkippedBy_of_posId
      · rw [hpos.1]
        exact hpos.2
      · rw [hdb2]
        apply List.mem_append_right
        apply List.mem_filterMap.mpr
        refine ⟨t, ht, ?_⟩
        rw [htl, hkey, hpos.1]
    
  simp only []
  rw [dedupLoop_skip_all _ _ _ _ _ _ hskip]
  rfl

/-! Claim theorems. -/

unseal Rat.add Rat.mul Rat.sub Rat.inv in
/-- C1, counterexample: the claim's fourth table entry says
`multiplier("EURGBP", {GBPUSD: 1.25}) == 100000 / 1.25` (= 80000), but the
code multiplies the 100,000-unit lot by the GBP→USD rate, giving 125000. -/
theorem multiplier_eurgbp_counterexample :
    getContractMultiplier "EURGBP" { GBPUSD := some (5 / 4) } "" = 125000 ∧
      (100000 : ℚ) / (5 / 4) = 80000 ∧ (125000 : ℚ) ≠ 80000 :=
  ⟨by decide, by norm_num, by norm_num⟩

unseal Rat.add Rat.mul Rat.sub Rat.inv in
/-- C1 (amended): the multiplier table holds with the EURGBP entry read as a
multiplication by the quote-currency→USD rate: `multiplier("XAUUSD", {}) =
100`, `multiplier("NAS100", {}) = 1`, `multiplier("DE40.PRO",
{EURUSD: 1.08}) = 108`, and `multiplier("EURGBP", {GBPUSD: 1.25}) =
100000 × 1.25` (the inverse `1/rate` conversion applies only to
USD-base-quoted currencies CAD, CHF, JPY, SGD). -/
theorem multiplier_table_amended :
    getContractMultiplier "XAUUSD" {} "" = 100 ∧
    getContractMultiplier "NAS100" {} "" = 1 ∧
    getContractMultiplier "DE40.PRO" { EURUSD := some (27 / 25) } "" = 108 ∧
    getContractMultiplier "EURGBP" { GBPUSD := some (5 / 4) } "" = 100000 * (5 / 4) := by
  refine ⟨by decide, by decide, by decide, by decide⟩

/-- C2: every position reconciled by `groupPositionOrders` with positive
entry price, exit price and quantity records as its gross P&L the
2-decimal rounding of priceDiff × quantity × contract multiplier, where
priceDiff is entry − exit for a sell and exit − entry otherwise. -/
theorem grossPnl_formula (orders : List RawOrder) (im ifm : List (String × String))
    (fx : FxRates) (p : Pos) (hmem : p ∈ groupPositionOrders orders im fx ifm)
    (hentry : p.openPrice > 0) (hexit : p.exitPrice > 0) (hqty : p.qty > 0) :
    p.profit = round2
      ((if p.side = "sell" then p.openPrice - p.exitPrice else p.exitPrice - p.openPrice) *
        p.qty *
        getContractMultiplier ((im.lookup p.tradableInstrumentId).getD "") fx
          ((ifm.lookup p.tradableInstrumentId).getD "")) := by
  obtain ⟨kv, hkv, hbp⟩ := groupPositionOrders_mem_decomp orders im ifm fx p hmem
  obtain ⟨o, c, rfl, -, -⟩ := buildPosition_eq_some kv.1 kv.2 im ifm fx p hbp
  rw [buildPositionCore_profit, if_pos ⟨hentry, hexit, hqty⟩]

unseal Rat.add Rat.mul Rat.sub Rat.inv in
/-- C2 witness: the spec's concrete case — side sell, qty 0.19, entry
24876.12, exit 24869.41, multiplier 1 — records gross P&L 1.27. -/
theorem grossPnl_formula_witness :
    demoSellPos.profit = round2
      ((if demoSellPos.side = "sell" then demoSellPos.openPrice - demoSellPos.exitPrice
        else demoSellPos.exitPrice - demoSellPos.openPrice) * demoSellPos.qty *
        getContractMultiplier
          ((([] : List (String × String)).lookup demoSellPos.tradableInstrumentId).getD "")
          {} ((([] : List (String × String)).lookup demoSellPos.tradableInstrumentId).getD "")) ∧
    demoSellPos.profit = 127 / 100 :=
  ⟨grossPnl_formula [sellOpenOrder, sellCloseOrder] [] [] {} demoSellPos (by decide)
      (by decide) (by decide) (by decide),
    by decide⟩

/-- C4, counterexample: a run whose only row insert fails still advances the
lastSyncedAt checkpoint — the insert loop swallows the error and the update
runs unconditionally, contradicting the claim that a failed insert leaves
the checkpoint untouched. -/
theorem checkpoint_advanced_counterexample :
    syncPersistStep [dbSeed] (fun _ => false) = (0, true) := by decide

/-- C4 (amended): the lastSyncedAt checkpoint is advanced unconditionally
after the insert loop, whatever subset of row inserts succeeded; failed
rows are not protected by the checkpoint (they are retried only if they
still fall inside the next run's window and dedup set). -/
theorem checkpoint_advanced_always (trades : List DbTrade) (insertOk : Nat → Bool) :
    (syncPersistStep trades insertOk).2 = true := rfl

/-- C9, counterexample: in the dense encoding a missing stop-loss slot [17]
normalizes to the number 0, not to null, and is indistinguishable from a
stop loss explicitly set to 0 (the same holds for the missing quantity
slot [3]). -/
theorem normalize_missing_zero_counterexample :
    (normalizeTradeLockerTrade allMissingOrder).stopPrice = 0 ∧
    (normalizeTradeLockerTrade allMissingOrder).volume = 0 ∧
    normalizeTradeLockerTrade allMissingOrder = normalizeTradeLockerTrade zeroStopLossOrder := by
  decide

/-- C9 (amended): missing id/timestamp fields (order id [0], created
timestamp [13], positionId [16]) normalize to null, while missing numeric
fields (quantity [3], stop loss [17], take profit [19]) normalize to 0 —
"not set" is distinguishable from "set to zero" only for the null-valued
fields. -/
theorem normalize_defaults (o : RawOrder)
    (h : o.f0 = none ∧ o.f13 = none ∧ o.f16 = none ∧ o.f3 = none ∧ o.f17 = none ∧
      o.f19 = none) :
    (normalizeTradeLockerTrade o).ticket = none ∧
    (normalizeTradeLockerTrade o).openTime = none ∧
    (normalizeTradeLockerTrade o).positionId = none ∧
    (normalizeTradeLockerTrade o).volume = 0 ∧
    (normalizeTradeLockerTrade o).stopPrice = 0 ∧
    (normalizeTradeLockerTrade o).takeProfit = 0 := by
  obtain ⟨h0, h13, h16, h3, h17, h19⟩ := h
  unfold normalizeTradeLockerTrade
  simp only [h0, h13, h16, h3, h17, h19, Option.getD_none]
  exact ⟨trivial, trivial, trivial, trivial, trivial, trivial⟩

/-- C9 witness: the all-missing dense order instantiates the amended
claim. -/
theorem normalize_defaults_witness :
    (normalizeTradeLockerTrade allMissingOrder).ticket = none ∧
    (normalizeTradeLockerTrade allMissingOrder).openTime = none ∧
    (normalizeTradeLockerTrade allMissingOrder).positionId = none ∧
    (normalizeTradeLockerTrade allMissingOrder).volume = 0 ∧
    (normalizeTradeLockerTrade allMissingOrder).stopPrice = 0 ∧
    (normalizeTradeLockerTrade allMissingOrder).takeProfit = 0 :=
  normalize_defaults allMissingOrder (by decide)

theorem computePnl_of_not_small (p : Pos) (h : ¬ (|p.profit| < 1 / 10000)) :
    computePnl p = p.profit := by
  unfold computePnl nNetProfitPos
  rw [if_neg]
  intro hc
  exact h hc.1

theorem dedupLoop_cons_create (ids : List String) (rp rr : ℚ) (now : Int)
    (p : Pos) (rest : List Pos) (bal : ℚ)
    (h : isSkippedBy ids p = false) :
    dedupLoop ids rp rr now (p :: rest) bal =
      (({ tradelockerTradeId := tradeLockerIdOf p,
          row := transformTradeLockerTrade p bal rp rr now } : DbTrade) ::
          (dedupLoop ids rp rr now rest
            (transformTradeLockerTrade p bal rp rr now).closeBalance).1,
        (dedupLoop ids rp rr now rest
          (transformTradeLockerTrade p bal rp rr now).closeBalance).2) := by
  have hn := decide_eq_false_iff_not.mp h
  simp only [dedupLoop]
  rw [if_neg (fun hA => hn (Or.inl hA)), if_neg (fun hB => hn (Or.inr hB))]

unseal Rat.add Rat.mul Rat.sub Rat.inv in
set_option maxRecDepth 1000000 in
/-- C3, counterexample: running refresh twice against an unchanged upstream
order set of 101 round trips whose exit times all coincide. The first run
is the account's first-ever sync, so the 100-cap discards one position;
the second run's window filter keeps all 101 (their exit time equals the
persisted maximum), dedup skips only the persisted 100, and one record is
created — not zero as claimed. -/
theorem refresh_twice_counterexample :
    (runSync Mode.refresh (runSync Mode.refresh [] none 999 idemOrders [] {} []).newDb
      none 999 idemOrders [] {} []).created = 1 := by decide

/-- C3 witness: a database holding one synced trade, a one-position order
stream; the second refresh run creates nothing. -/
theorem refresh_second_run_zero_witness :
    (runSync Mode.refresh
        (runSync Mode.refresh [dbSeed] none 999 [sellOpenOrder, sellCloseOrder] [] {} []).newDb
        none 999 [sellOpenOrder, sellCloseOrder] [] {} []).created = 0 :=
  refresh_second_run_zero [dbSeed] none 999 999 [sellOpenOrder, sellCloseOrder] [] [] {}
    (by decide)

/-- Chaining of the running balance through three unskipped positions of
the transform-and-dedup loop, for an abstract 2-decimal starting balance
and 2-decimal nonzero recorded gross P&Ls. -/
theorem dedupLoop_chain3 (ids : List String) (rp rr : ℚ) (now : Int)
    (B p1 p2 p3 : ℚ) (q1 q2 q3 : Pos)
    (hB : round2 B = B)
    (hq1 : q1.profit = p1) (hq2 : q2.profit = p2) (hq3 : q3.profit = p3)
    (hfix1 : round2 p1 = p1) (hne1 : p1 ≠ 0)
    (hfix2 : round2 p2 = p2) (hne2 : p2 ≠ 0)
    (hfix3 : round2 p3 = p3) (hne3 : p3 ≠ 0)
    (hs1 : isSkippedBy ids q1 = false) (hs2 : isSkippedBy ids q2 = false)
    (hs3 : isSkippedBy ids q3 = false) :
    ((dedupLoop ids rp rr now [q1, q2, q3] B).1.map (fun t => t.row.openBalance) =
      [B, B + p1, B + p1 + p2]) ∧
    ((dedupLoop ids rp rr now [q1, q2, q3] B).1.map (fun t => t.row.closeBalance) =
      [B + p1, B + p1 + p2, B + p1 + p2 + p3]) := by
  have hc1 : computePnl q1 = p1 := by
    rw [computePnl_of_not_small q1 (by rw [hq1]; exact round2_ne_zero_bound p1 hfix1 hne1), hq1]
  have hc2 : computePnl q2 = p2 := by
    rw [computePnl_of_not_small q2 (by rw [hq2]; exact round2_ne_zero_bound p2 hfix2 hne2), hq2]
  have hc3 : computePnl q3 = p3 := by
    rw [computePnl_of_not_small q3 (by rw [hq3]; exact round2_ne_zero_bound p3 hfix3 hne3), hq3]
  have hfixB1 : round2 (B + p1) = B + p1 := by
    rw [round2_add_fixed B p1 hB, hfix1]
  have hfixB2 : round2 (B + p1 + p2) = B + p1 + p2 := by
    rw [round2_add_fixed (B + p1) p2 hfixB1, hfix2]
  have hfixB3 : round2 (B + p1 + p2 + p3) = B + p1 + p2 + p3 := by
    rw [round2_add_fixed (B + p1 + p2) p3 hfixB2, hfix3]
  have ht1open : (transformTradeLockerTrade q1 B rp rr now).openBalance = B := hB
  have ht1close : (transformTradeLockerTrade q1 B rp rr now).closeBalance = B + p1 := by
    show round2 (B + computePnl q1) = B + p1
    rw [hc1]
    exact hfixB1
  have ht2open : (transformTradeLockerTrade q2 (B + p1) rp rr now).openBalance = B + p1 :=
    hfixB1
  have ht2close : (transformTradeLockerTrade q2 (B + p1) rp rr now).closeBalance =
      B + p1 + p2 := by
    show round2 (B + p1 + computePnl q2) = B + p1 + p2
    rw [hc2]
    exact hfixB2
  have ht3open : (transformTradeLockerTrade q3 (B + p1 + p2) rp rr now).openBalance =
      B + p1 + p2 := hfixB2
  have ht3close : (transformTradeLockerTrade q3 (B + p1 + p2) rp rr now).closeBalance =
      B + p1 + p2 + p3 := by
    show round2 (B + p1 + p2 + computePnl q3) = B + p1 + p2 + p3
    rw [hc3]
    exact hfixB3
  rw [dedupLoop_cons_create ids rp rr now q1 [q2, q3] B hs1, ht1close,
    dedupLoop_cons_create ids rp rr now q2 [q3] (B + p1) hs2, ht2close,
    dedupLoop_cons_create ids rp rr now q3 [] (B + p1 + p2) hs3, ht3close]
  refine ⟨?_, ?_⟩
  · simp only [List.map_cons, List.map_nil,
      show (dedupLoop ids rp rr now [] (B + p1 + p2 + p3)) = ([], 0) from rfl]
    rw [ht1open, ht2open, ht3open]
  · simp only [List.map_cons, List.map_nil,
      show (dedupLoop ids rp rr now [] (B + p1 + p2 + p3)) = ([], 0) from rfl]
    rw [ht1close, ht2close, ht3close]

unseal Rat.add Rat.mul Rat.sub Rat.inv in
/-- C5, counterexample: the running balance does not start from the
account's current ledger balance. A first sync whose fetched ledger
balance is 5000, with no settings row, produces a record whose
openingBalance is the settings default 1000 ≠ 5000; and the run outcome
is unchanged when the fetched balance is 777 instead. -/
theorem balance_start_counterexample :
    (postSync 5000 Mode.initial [] none 999 [sellOpenOrder, sellCloseOrder] [] {} []).balance
        = 5000 ∧
    ((postSync 5000 Mode.initial [] none 999
        [sellOpenOrder, sellCloseOrder] [] {} []).result.tradesToCreate.map
      (fun t => t.row.openBalance) = [1000]) ∧
    (1000 : ℚ) ≠ 5000 ∧
    (postSync 5000 Mode.initial [] none 999 [sellOpenOrder, sellCloseOrder] [] {} []).result =
      (postSync 777 Mode.initial [] none 999 [sellOpenOrder, sellCloseOrder] [] {} []).result := by
  decide

/-- C5 (amended): the running balance starts from the user's configured
startingBalance setting (default 1000), never from the account's fetched
ledger balance — the route returns that balance for information only, so
the run outcome is the same for every fetched value. When the run's
position window is [q1, q2, q3] with recorded gross P&Ls p1, p2, p3
(2-decimal, nonzero) and none already persisted, the created records'
openingBalance sequence is [B, B+p1, B+p1+p2] and closingBalance sequence
[B+p1, B+p1+p2, B+p1+p2+p3] for B = settingsStartBal settings. -/
theorem balance_sequencing (fetchedBalance : ℚ) (mode : Mode) (db : List DbTrade)
    (settings : Option Settings) (now : Int) (orders : List RawOrder)
    (im ifm : List (String × String)) (fx : FxRates)
    (q1 q2 q3 : Pos) (p1 p2 p3 : ℚ)
    (hwin : syncWindow mode db orders im fx ifm = [q1, q2, q3])
    (hB : round2 (settingsStartBal settings) = settingsStartBal settings)
    (hq1 : q1.profit = p1) (hq2 : q2.profit = p2) (hq3 : q3.profit = p3)
    (hfix1 : round2 p1 = p1) (hne1 : p1 ≠ 0)
    (hfix2 : round2 p2 = p2) (hne2 : p2 ≠ 0)
    (hfix3 : round2 p3 = p3) (hne3 : p3 ≠ 0)
    (hs1 : isSkippedBy (db.filterMap (fun t => t.tradelockerTradeId)) q1 = false)
    (hs2 : isSkippedBy (db.filterMap (fun t => t.tradelockerTradeId)) q2 = false)
    (hs3 : isSkippedBy (db.filterMap (fun t => t.tradelockerTradeId)) q3 = false) :
    (postSync fetchedBalance mode db settings now orders im fx ifm).result =
        runSync mode db settings now orders im fx ifm ∧
    ((runSync mode db settings now orders im fx ifm).tradesToCreate.map
        (fun t => t.row.openBalance) =
      [settingsStartBal settings, settingsStartBal settings + p1,
        settingsStartBal settings + p1 + p2]) ∧
    ((runSync mode db settings now orders im fx ifm).tradesToCreate.map
        (fun t => t.row.closeBalance) =
      [settingsStartBal settings + p1, settingsStartBal settings + p1 + p2,
        settingsStartBal settings + p1 + p2 + p3]) := by
  have hchain := dedupLoop_chain3 (db.filterMap (fun t => t.tradelockerTradeId))
    (settingsRiskPercent settings) (settingsRiskReward settings) now
    (settingsStartBal settings) p1 p2 p3 q1 q2 q3 hB hq1 hq2 hq3
    hfix1 hne1 hfix2 hne2 hfix3 hne3 hs1 hs2 hs3
  refine ⟨rfl, ?_, ?_⟩
  · rw [runSync_tradesToCreate, hwin]
    exact hchain.1
  · rw [runSync_tradesToCreate, hwin]
    exact hchain.2

unseal Rat.add Rat.mul Rat.sub Rat.inv in
/-- C5 witness: ledger balance 5000, no settings row (so B = 1000), three
round trips with gross P&Ls 10.5, −3.25 and 1. -/
theorem balance_sequencing_witness :
    (postSync 5000 Mode.initial [] none 999 seqOrders [] {} []).result =
        runSync Mode.initial [] none 999 seqOrders [] {} [] ∧
    ((runSync Mode.initial [] none 999 seqOrders [] {} []).tradesToCreate.map
        (fun t => t.row.openBalance) = [1000, 1000 + 21 / 2, 1000 + 21 / 2 + -13 / 4]) ∧
    ((runSync Mode.initial [] none 999 seqOrders [] {} []).tradesToCreate.map
        (fun t => t.row.closeBalance) =
      [1000 + 21 / 2, 1000 + 21 / 2 + -13 / 4, 1000 + 21 / 2 + -13 / 4 + 1]) :=
  balance_sequencing 5000 Mode.initial [] none 999 seqOrders [] [] {}
    (seqWinPos 0) (seqWinPos 1) (seqWinPos 2) (21 / 2) (-13 / 4) 1
    (by decide) (by decide) (by decide) (by decide) (by decide)
    (by decide) (by decide) (by decide) (by decide) (by decide) (by decide)
    (by decide) (by decide) (by decide)

/-- C6: a positionId group that lacks a filled opening order, or lacks a
filled closing order, contributes no reconciled position: the output of
`groupPositionOrders` contains no position carrying that positionId. -/
theorem incomplete_group_no_position (orders : List RawOrder)
    (im ifm : List (String × String)) (fx : FxRates) (g : String)
    (h : (∀ o ∈ orders, orderKey o = some g → isFilledOpening o = false) ∨
         (∀ o ∈ orders, orderKey o = some g → isFilledClosing o = false)) :
    (groupPositionOrders orders im fx ifm).filter (fun p => p.positionId == g) = [] := by
  rw [List.filter_eq_nil_iff]
  intro p hp hbeq
  obtain ⟨kv, hkv, hbp⟩ := groupPositionOrders_mem_decomp orders im ifm fx p hp
  have hsub := buildGroups_mem_orders orders kv hkv
  obtain ⟨o, c, rfl, ho, hc⟩ := buildPosition_eq_some kv.1 kv.2 im ifm fx p hbp
  have hg : kv.1 = g := eq_of_beq hbeq
  rcases h with h | h
  · obtain ⟨hoin, hofill⟩ := List.mem_filter.mp ho
    obtain ⟨hoin', hkey⟩ := hsub o hoin
    rw [hg] at hkey
    rw [h o hoin' hkey] at hofill
    exact Bool.false_ne_true hofill
  · obtain ⟨hcin, hcfill⟩ := List.mem_filter.mp hc
    obtain ⟨hcin', hkey⟩ := hsub c hcin
    rw [hg] at hkey
    rw [h c hcin' hkey] at hcfill
    exact Bool.false_ne_true hcfill

/-- C6 witness: a group holding only an opening fill (positionId "7")
produces zero positions. -/
theorem incomplete_group_no_position_witness :
    (groupPositionOrders [loneOpeningOrder] [] {} []).filter
      (fun p => p.positionId == "7") = [] :=
  incomplete_group_no_position [loneOpeningOrder] [] [] {} "7" (Or.inr (by decide))

/-- C7: for every position reconciled from any order stream, with o its
picked opening fill and os its positionId sibling group: when the opening
order carries a stop-loss [17] (nonzero), that value is recorded; when it
is absent, the recorded stopLoss is the price of the first sibling bracket
order — opposite side from the opening fill, status
cancelled/pending/empty, time-in-force GTC — of stop kind with a nonzero
price (none when no such bracket exists); symmetrically the takeProfit
comes from the first limit-kind bracket, each fallback firing only when
the primary field was absent. -/
theorem bracket_fallback (orders : List RawOrder) (im ifm : List (String × String))
    (fx : FxRates) (p : Pos) (hp : p ∈ groupPositionOrders orders im fx ifm) :
    ∃ k os o c, (k, os) ∈ buildGroups orders ∧
      (∀ b ∈ os, b ∈ orders ∧ orderKey b = some k) ∧
      o ∈ os.filter isFilledOpening ∧ c ∈ os.filter isFilledClosing ∧
      p = buildPositionCore o c k os im fx ifm ∧
      p.side = sideOf o ∧
      (∀ v, jsOrNullQ o.f17 = some v → p.stopLoss = some v) ∧
      (jsOrNullQ o.f17 = none →
        p.stopLoss = firstBracketPrice "stop"
          (if sideOf o = "sell" then "buy" else "sell") os) ∧
      (∀ v, jsOrNullQ o.f19 = some v → p.takeProfit = some v) ∧
      (jsOrNullQ o.f19 = none →
        p.takeProfit = firstBracketPrice "limit"
          (if sideOf o = "sell" then "buy" else "sell") os) := by
  obtain ⟨kv, hkv, hbp⟩ := groupPositionOrders_mem_decomp orders im ifm fx p hp
  obtain ⟨o, c, hpe, ho, hc⟩ := buildPosition_eq_some kv.1 kv.2 im ifm fx p hbp
  subst hpe
  refine ⟨kv.1, kv.2, o, c, hkv, buildGroups_mem_orders orders kv hkv, ho, hc, rfl,
    buildPositionCore_side o c kv.1 kv.2 im ifm fx, ?_, ?_, ?_, ?_⟩
  · intro v hv
    rw [buildPositionCore_stopLoss, hv]
    exact applyBrackets_fst_keep _ v _
  · intro hnone
    rw [buildPositionCore_stopLoss, hnone, applyBrackets_fst_search, findq_filter]
    rfl
  · intro v hv
    rw [buildPositionCore_takeProfit, hv]
    exact applyBrackets_snd_keep _ v _
  · intro hnone
    rw [buildPositionCore_takeProfit, hnone, applyBrackets_snd_search, findq_filter]
    rfl

unseal Rat.add Rat.mul Rat.sub Rat.inv in
/-- C7 witness: a buy-side position whose opening order has a primary TP
but no SL, with a zero-price pending stop bracket (skipped), an
empty-status stop bracket at 90 (taken), and a pending limit bracket at
200 (overridden by the primary 50); and a sell-side position recovering
both SL 2.5 and TP 3.5 from cancelled brackets. -/
theorem bracket_fallback_witness :
    ((groupPositionOrders buyBracketDemoOrders [] {} []).map
        (fun p => (p.stopLoss, p.takeProfit)) = [(some 90, some 50)]) ∧
    ((groupPositionOrders (bracketDemoOrders (5 / 2) (7 / 2)) [] {} []).map
        (fun p => (p.stopLoss, p.takeProfit)) = [(some (5 / 2), some (7 / 2))]) ∧
    (∃ k os o c, (k, os) ∈ buildGroups buyBracketDemoOrders ∧
      (∀ b ∈ os, b ∈ buyBracketDemoOrders ∧ orderKey b = some k) ∧
      o ∈ os.filter isFilledOpening ∧ c ∈ os.filter isFilledClosing ∧
      buyBracketDemoPos = buildPositionCore o c k os [] {} [] ∧
      buyBracketDemoPos.side = sideOf o ∧
      (∀ v, jsOrNullQ o.f17 = some v → buyBracketDemoPos.stopLoss = some v) ∧
      (jsOrNullQ o.f17 = none →
        buyBracketDemoPos.stopLoss = firstBracketPrice "stop"
          (if sideOf o = "sell" then "buy" else "sell") os) ∧
      (∀ v, jsOrNullQ o.f19 = some v → buyBracketDemoPos.takeProfit = some v) ∧
      (jsOrNullQ o.f19 = none →
        buyBracketDemoPos.takeProfit = firstBracketPrice "limit"
          (if sideOf o = "sell" then "buy" else "sell") os)) :=
  ⟨by decide, by decide,
    bracket_fallback buyBracketDemoOrders [] [] {} buyBracketDemoPos (by decide)⟩

/-- C8: when the run caps (mode initial, or no persisted external ids), a
reconciled list of 150 positions is cut to exactly its 100 most recent by
exit time: the kept list is the final 100 of the exit-time-sorted output
and every discarded position's exit time is at most every kept one's. -/
theorem initial_cap (orders : List RawOrder) (im ifm : List (String × String))
    (fx : FxRates) (mode : Mode) (ids : List String)
    (hcap : mode = Mode.initial ∨ ids = [])
    (hlen : (groupPositionOrders orders im fx ifm).length = 150) :
    (capStep (shouldCapRun mode ids) (groupPositionOrders orders im fx ifm)).length = 100 ∧
    capStep (shouldCapRun mode ids) (groupPositionOrders orders im fx ifm) =
      (groupPositionOrders orders im fx ifm).drop 50 ∧
    ∀ x ∈ (groupPositionOrders orders im fx ifm).take 50,
      ∀ y ∈ capStep (shouldCapRun mode ids) (groupPositionOrders orders im fx ifm),
        closeMsOf x ≤ closeMsOf y := by
  have hsc : shouldCapRun mode ids = true := by
    unfold shouldCapRun
    rcases hcap with rfl | rfl
    · rfl
    · simp
  have hcs : capStep (shouldCapRun mode ids) (groupPositionOrders orders im fx ifm) =
      (groupPositionOrders orders im fx ifm).drop 50 := by
    rw [hsc]
    unfold capStep takeLast
    rw [if_pos rfl, hlen]
  refine ⟨?_, hcs, ?_⟩
  · rw [hcs, List.length_drop, hlen]
  · intro x hx y hy
    rw [hcs] at hy
    have hpair := groupPositionOrders_sorted orders im ifm fx
    rw [show groupPositionOrders orders im fx ifm =
        (groupPositionOrders orders im fx ifm).take 50 ++
          (groupPositionOrders orders im fx ifm).drop 50 from
      (List.take_append_drop _ _).symm] at hpair
    rw [List.pairwise_append] at hpair
    exact hpair.2.2 x hx y hy

unseal Rat.add Rat.mul Rat.sub Rat.inv in
set_option maxRecDepth 1000000 in
/-- C8 witness: an order stream reconciling to 150 positions, capped on a
first-ever sync, keeps exactly 100. -/
theorem initial_cap_witness :
    (capStep (shouldCapRun Mode.initial [])
      (groupPositionOrders capOrders [] {} [])).length = 100 :=
  (initial_cap capOrders [] [] {} Mode.initial [] (Or.inl rfl) (by decide)).1

unseal Rat.add Rat.mul Rat.sub Rat.inv in
set_option maxRecDepth 100000 in
/-- C10, counterexample: a buy round trip entry 1 → exit 1.001, qty 1,
balance 1000 yields a record classified "Win" whose recorded pnl field is
0 (the raw pnl 0.001 is positive but rounds to 0), so on the records the
claim's "result = Breakeven iff pnl == 0" fails. -/
theorem result_classification_counterexample :
    (transformTradeLockerTrade tinyProfitPos 1000 2 3 999).result = "Win" ∧
    (transformTradeLockerTrade tinyProfitPos 1000 2 3 999).pnl = 0 := by decide

theorem resultString_iff (td pnl : ℚ) :
    (((if (td ≤ pnl ∧ 0 < pnl) then "Target Achieved"
        else if 0 < pnl then "Win" else if pnl < 0 then "Loss" else "Breakeven") =
      "Target Achieved") ↔ (td ≤ pnl ∧ 0 < pnl)) ∧
    (((if (td ≤ pnl ∧ 0 < pnl) then "Target Achieved"
        else if 0 < pnl then "Win" else if pnl < 0 then "Loss" else "Breakeven") =
      "Win") ↔ (0 < pnl ∧ ¬ td ≤ pnl)) ∧
    (((if (td ≤ pnl ∧ 0 < pnl) then "Target Achieved"
        else if 0 < pnl then "Win" else if pnl < 0 then "Loss" else "Breakeven") =
      "Loss") ↔ pnl < 0) ∧
    (((if (td ≤ pnl ∧ 0 < pnl) then "Target Achieved"
        else if 0 < pnl then "Win" else if pnl < 0 then "Loss" else "Breakeven") =
      "Breakeven") ↔ pnl = 0) := by
  rcases lt_trichotomy pnl 0 with h | h | h
  · have h2 : ¬ 0 < pnl := by linarith
    have hs : (if (td ≤ pnl ∧ 0 < pnl) then "Target Achieved"
        else if 0 < pnl then "Win" else if pnl < 0 then "Loss" else "Breakeven") = "Loss" := by
      rw [if_neg (fun hc => h2 hc.2), if_neg h2, if_pos h]
    rw [hs]
    refine ⟨?_, ?_, ?_, ?_⟩ <;> simp [h, h2, ne_of_lt h]
  · subst h
    have h2 : ¬ (0 : ℚ) < 0 := lt_irrefl 0
    have hs : (if (td ≤ (0 : ℚ) ∧ (0 : ℚ) < 0) then "Target Achieved"
        else if (0 : ℚ) < 0 then "Win" else if (0 : ℚ) < 0 then "Loss" else "Breakeven") =
        "Breakeven" := by
      rw [if_neg (fun hc => h2 hc.2), if_neg h2, if_neg h2]
    rw [hs]
    refine ⟨?_, ?_, ?_, ?_⟩ <;> simp
  · have hnl : ¬ pnl < 0 := by linarith
    have hne : pnl ≠ 0 := by linarith
    by_cases h1 : td ≤ pnl
    · have hs : (if (td ≤ pnl ∧ 0 < pnl) then "Target Achieved"
          else if 0 < pnl then "Win" else if pnl < 0 then "Loss" else "Breakeven") =
          "Target Achieved" := if_pos ⟨h1, h⟩
      rw [hs]
      refine ⟨?_, ?_, ?_, ?_⟩ <;> simp [h, h1, hnl, hne]
    · have hs : (if (td ≤ pnl ∧ 0 < pnl) then "Target Achieved"
          else if 0 < pnl then "Win" else if pnl < 0 then "Loss" else "Breakeven") =
          "Win" := by
        rw [if_neg (fun hc => h1 hc.1), if_pos h]
      rw [hs]
      refine ⟨?_, ?_, ?_, ?_⟩ <;> simp [h, h1, hnl, hne]

/-- C10 (amended): with pnl denoting the transform's computed (pre-rounding)
pnl value and targetDollar' the unrounded target, the record satisfies
riskDollar = round2(openingBalance × riskPercent / 100), targetDollar =
round2(targetDollar'), the recorded pnl is round2(pnl), targetHit ↔ pnl ≥
targetDollar', and the classification is exactly: "Target Achieved" iff
targetHit ∧ pnl > 0, "Win" iff pnl > 0 ∧ ¬targetHit, "Loss" iff pnl < 0
and "Breakeven" iff pnl = 0 (so a breakeven trade is never "Target
Achieved" even when targetHit holds). -/
theorem transform_metrics (p : Pos) (B rp rr : ℚ) (now : Int) :
    ((transformTradeLockerTrade p B rp rr now).riskDollar =
      round2 (B * (if rp = 0 then 2 else rp) / 100)) ∧
    ((transformTradeLockerTrade p B rp rr now).targetDollar =
      round2 (B * (if rp = 0 then 2 else rp) / 100 * (if rr = 0 then 3 else rr))) ∧
    ((transformTradeLockerTrade p B rp rr now).pnl = round2 (computePnl p)) ∧
    ((transformTradeLockerTrade p B rp rr now).targetHit = true ↔
      B * (if rp = 0 then 2 else rp) / 100 * (if rr = 0 then 3 else rr) ≤ computePnl p) ∧
    ((transformTradeLockerTrade p B rp rr now).result = "Target Achieved" ↔
      (B * (if rp = 0 then 2 else rp) / 100 * (if rr = 0 then 3 else rr) ≤ computePnl p ∧
        0 < computePnl p)) ∧
    ((transformTradeLockerTrade p B rp rr now).result = "Win" ↔
      (0 < computePnl p ∧
        ¬ B * (if rp = 0 then 2 else rp) / 100 * (if rr = 0 then 3 else rr) ≤
          computePnl p)) ∧
    ((transformTradeLockerTrade p B rp rr now).result = "Loss" ↔ computePnl p < 0) ∧
    ((transformTradeLockerTrade p B rp rr now).result = "Breakeven" ↔
      computePnl p = 0) := by
  have hres : (transformTradeLockerTrade p B rp rr now).result =
      (if (B * (if rp = 0 then 2 else rp) / 100 * (if rr = 0 then 3 else rr) ≤
            computePnl p ∧ 0 < computePnl p) then "Target Achieved"
        else if 0 < computePnl p then "Win"
        else if computePnl p < 0 then "Loss"
        else "Breakeven") := by
    show (if (decide (B * (if rp = 0 then 2 else rp) / 100 * (if rr = 0 then 3 else rr) ≤
          computePnl p) && decide (0 < computePnl p)) = true then "Target Achieved"
        else if 0 < computePnl p then "Win"
        else if computePnl p < 0 then "Loss"
        else "Breakeven") = _
    by_cases h1 : B * (if rp = 0 then 2 else rp) / 100 * (if rr = 0 then 3 else rr) ≤
        computePnl p <;>
      by_cases h2 : 0 < computePnl p <;>
      simp [h1, h2]
  have hiffs := resultString_iff
    (B * (if rp = 0 then 2 else rp) / 100 * (if rr = 0 then 3 else rr)) (computePnl p)
  refine ⟨rfl, rfl, rfl, ⟨of_decide_eq_true, decide_eq_true⟩, ?_, ?_, ?_, ?_⟩ <;>
    rw [hres]
  · exact hiffs.1
  · exact hiffs.2.1
  · exact hiffs.2.2.1
  · exact hiffs.2.2.2
